import Mathlib

/-!
Verification development for the `jsoncomplete` validate-and-complete engine
(`jsoncomplete.py`).  The engine wraps a Draft-4 style JSON-schema validator:
missing or invalid properties whose schema carries a structured `default`
block are repaired in place, either from a static `value` or by asking a
`Question` (console or automated), with answers memoized per schema path and
per identity-field value.

The embedding below translates the source functions:
  * `QueristValidator._get_key`            → `getKey`
  * `QueristValidator._ask`                → `askStep`
  * `QueristValidator._resolve_default`    → `resolveDefault` / `resolveWrite`
  * `set_defaults` / `required_default_d4` / `QueristValidator.iter_errors`
                                           → `handleErr`, `phaseDefaults`,
                                             `phaseProperties`, `phaseRequired`,
                                             `runIterErrors`
  * `ConsoleQuestion.ask`                  → `consoleAsk`
  * `AutoAnswers._random_answer` / `.ask`  → `randomAnswer` / `autoAsk`

Python dictionaries become association lists, Python `None` is `Value.vNull`
(JSON null and Python None coincide in the source), exceptions are modelled
with `Except PyExc`, and the external response source (console input or the
random generator) is an explicit oracle stream.  Printing (prompt rendering,
the `show_choices`/`dictionary` pretty list) is pure I/O with no effect on
the returned values and is not modelled.  The base Draft-4 engine is modelled
at its interface for the schema grammar the repository uses for leaf
properties: the `type` and `enum` keywords; the container instance is an
object.  The order in which the extended validator visits schema keywords is
fixed as `properties` before `required` (in the source it is the JSON
schema's key order); none of the proved statements depend on this order.
-/

/-- Python/JSON scalar values as they occur in the engine's documents.
`vNull` is both JSON null and Python `None`. -/
inductive Value where
  | vNull : Value
  | vBool (b : Bool) : Value
  | vInt (n : Int) : Value
  | vStr (s : String) : Value
deriving DecidableEq, Repr

/-- Python truthiness of a scalar value (`if self._default_value:` etc.). -/
def truthy : Value → Bool
  | Value.vNull => false
  | Value.vBool b => b
  | Value.vInt n => decide (n ≠ 0)
  | Value.vStr s => decide (s ≠ "")

/-- Python exceptions the translated code can raise. -/
inductive PyExc where
  | keyError : PyExc
  | typeError : PyExc
  | valueError : PyExc
  | indexError : PyExc
deriving DecidableEq, Repr

/-- Equality of modelled computation outcomes is decidable. -/
instance {ε α : Type} [DecidableEq ε] [DecidableEq α] : DecidableEq (Except ε α) := fun x y =>
  match x, y with
  | Except.error a, Except.error b =>
    if h : a = b then isTrue (by rw [h]) else isFalse (by intro hc; cases hc; exact h rfl)
  | Except.ok a, Except.ok b =>
    if h : a = b then isTrue (by rw [h]) else isFalse (by intro hc; cases hc; exact h rfl)
  | Except.error _, Except.ok _ => isFalse (by intro hc; cases hc)
  | Except.ok _, Except.error _ => isFalse (by intro hc; cases hc)

/-- Association-list lookup, modelling Python `d[k]` / `k in d` on dicts. -/
def alist.find {κ α : Type} [DecidableEq κ] : List (κ × α) → κ → Option α
  | [], _ => none
  | (k', v) :: t, k => if k' = k then some v else alist.find t k

/-- Association-list update, modelling Python `d[k] = v` (replace or append). -/
def alist.set {κ α : Type} [DecidableEq κ] : List (κ × α) → κ → α → List (κ × α)
  | [], k, v => [(k, v)]
  | (k', v') :: t, k, v => if k' = k then (k, v) :: t else (k', v') :: alist.set t k v

/-- A JSON object (a Python dict with string keys). -/
abbrev Dict := List (String × Value)

/-- A schema path: the sequence of keys from the root to a property. -/
abbrev SPath := List String

/-- The structured `default` block of a property schema
(`value`, `question`, `key_field`; `show_choices`/`dictionary` only affect
printed prompts and are omitted).  `value` is `default.get('value')`, which
is Python `None` (`vNull`) when the key is absent.  `question` records
whether the `'question'` key is present and its template text.
`key_field` is the truthiness of `default.get('key_field')`. -/
structure DefaultSpec where
  value : Value
  question : Option String
  key_field : Bool
deriving DecidableEq, Repr

/-- The Python value found under a schema's `default` key: either a plain
scalar (`not isinstance(default, dict)`) or a structured block. -/
inductive PyDefault where
  | scalar (v : Value) : PyDefault
  | block (d : DefaultSpec) : PyDefault
deriving DecidableEq, Repr

/-- The property-schema fragment the engine reads: `type`, `enum`,
`default`. -/
structure PropSchema where
  type : Option String
  enum : Option (List Value)
  default : Option PyDefault
deriving DecidableEq, Repr

/-- `{}`: the empty schema fragment `properties.get(prop, {})`. -/
def emptySchema : PropSchema := ⟨none, none, none⟩

/-- A `Question` object as built by `Question.__init__` from a default
block, the property's declared type and enum, the required flag and the
correction flag.  The pre-rendered choices string only affects prompts and
is omitted. -/
structure Question where
  default_value : Value
  correction : Bool
  enum : Option (List Value)
  question : String
  required : Bool
  qtype : Option String
deriving DecidableEq, Repr

/-- `Question.__init__` / `self._make_question(default, type, enum,
required, correction)`. -/
def Question.make (d : DefaultSpec) (tp : Option String) (en : Option (List Value))
    (req : Bool) (corr : Bool) : Question :=
  { default_value := d.value
    correction := corr
    enum := en
    question := d.question.getD ""
    required := req
    qtype := tp }

/-- `QueristValidator._get_key`: first property whose `default` block has a
truthy `key_field`, else `None`. -/
def getKey : List (String × PropSchema) → Option String
  | [] => none
  | (prop, sub) :: rest =>
    match sub.default with
    | some (PyDefault.block d) => if d.key_field then some prop else getKey rest
    | _ => getKey rest

/-- The answer cache `self._answers`:
container path ↦ identity value ↦ property name ↦ recorded answer. -/
abbrev AnswerCache := List (SPath × List (Value × List (String × Value)))

/-- The orchestrator's mutable state: the per-path question cache
`self._questions` (entry `none` means the Python cache holds `None`, i.e.
"no remediation"), the answer cache `self._answers`, the per-container key
cache `self._keys`, plus instrumentation: `askLog` records each
`question.ask` invocation (property path, key value passed) and `created`
records each `Question` construction. -/
structure OrchState where
  questions : List (SPath × Option (Option Question × Value))
  answers : AnswerCache
  keys : List (SPath × Option String)
  askLog : List (SPath × Option Value)
  created : List SPath
deriving Repr

/-- Three-level lookup into the answer cache. -/
def lookupAnswer (c : AnswerCache) (kp : SPath) (kv : Value) (prop : String) : Option Value :=
  match alist.find c kp with
  | none => none
  | some m =>
    match alist.find m kv with
    | none => none
    | some yet => alist.find yet prop

/-- `QueristValidator._ask(path, error, question)`.  `oracle` supplies the
answer `question.ask(...)` would return for the n-th invocation overall
(the console / random generator is a single shared response source).
Returns `Except.error keyError` where the Python code raises `KeyError`:
`error.get_root_instance()[key]` with `key` equal to `None` (no key field
discovered) or with the key field absent from the instance. -/
def askStep (oracle : Nat → Value) (rootProps : List (String × PropSchema))
    (rootInst : Dict) (st0 : OrchState) (path : SPath) (prop : String) :
    Except PyExc (Value × OrchState) :=
  let key_path := path.dropLast
  let answers := (alist.find st0.answers key_path).getD []
  let baseAnswers :=
    match alist.find st0.answers key_path with
    | some _ => st0.answers
    | none => alist.set st0.answers key_path []
  let key : Option String :=
    match alist.find st0.keys key_path with
    | some k => k
    | none => getKey rootProps
  let keys' :=
    match alist.find st0.keys key_path with
    | some _ => st0.keys
    | none => alist.set st0.keys key_path (getKey rootProps)
  let st1 : OrchState := { st0 with answers := baseAnswers, keys := keys' }
  match key with
  | none => Except.error PyExc.keyError
  | some k =>
    match alist.find rootInst k with
    | none => Except.error PyExc.keyError
    | some key_value =>
      if key_value = Value.vNull then
        -- `else: answer = question.ask()`
        Except.ok (oracle st1.askLog.length,
          { st1 with askLog := st1.askLog ++ [(path, none)] })
      else
        let yet := (alist.find answers key_value).getD []
        match alist.find yet prop with
        | some a => Except.ok (a, st1)
        | none =>
          let ans := oracle st1.askLog.length
          -- `if answer is not None: yet_answered[prop] = answer`
          let yet' := if ans = Value.vNull then yet else alist.set yet prop ans
          Except.ok (ans,
            { st1 with
              answers := alist.set st1.answers key_path (alist.set answers key_value yet')
              askLog := st1.askLog ++ [(path, some key_value)] })

/-- The kind of extended error being handled (`DefaultHandler`,
`RequiredError`, `PropertyError`); determines the `required` and
`correction` flags passed to `Question.__init__`. -/
inductive ErrKind where
  | defaultH : ErrKind
  | requiredE : ErrKind
  | propertyE : ErrKind
deriving DecidableEq, Repr

/-- Line 262 of the source: write the resolved value into the instance,
through `_ask` when a question exists, else the static default value. -/
def resolveWrite (oracle : Nat → Value) (rootProps : List (String × PropSchema))
    (st : OrchState) (inst : Dict) (path : SPath) (prop : String)
    (qd : Option Question × Value) : Except PyExc (Bool × Dict × OrchState) :=
  match qd.1 with
  | some _ =>
    match askStep oracle rootProps inst st path prop with
    | Except.error e => Except.error e
    | Except.ok (ans, st') => Except.ok (true, alist.set inst prop ans, st')
  | none => Except.ok (true, alist.set inst prop qd.2, st)

/-- `QueristValidator._resolve_default(error)`.  Looks up or creates the
question-cache entry for the error's property path, then writes the
resolved value.  A cached Python `None` entry is unpacked by
`question, default_value = self._questions[path]`, raising `TypeError`. -/
def resolveDefault (oracle : Nat → Value) (rootProps : List (String × PropSchema))
    (cpath : SPath) (st0 : OrchState) (inst : Dict) (kind : ErrKind)
    (prop : String) (psub : PropSchema) : Except PyExc (Bool × Dict × OrchState) :=
  let path := cpath ++ [prop]
  match alist.find st0.questions path with
  | some none => Except.error PyExc.typeError
  | some (some qd) => resolveWrite oracle rootProps st0 inst path prop qd
  | none =>
    match psub.default with
    | some (PyDefault.block d) =>
      let question : Option Question :=
        match d.question with
        | some _ => some (Question.make d psub.type psub.enum
            (kind = ErrKind.requiredE) (kind ≠ ErrKind.defaultH))
        | none => none
      let created' :=
        match d.question with
        | some _ => st0.created ++ [path]
        | none => st0.created
      let st1 : OrchState := { st0 with
        questions := alist.set st0.questions path (some (question, d.value))
        created := created' }
      resolveWrite oracle rootProps st1 inst path prop (question, d.value)
    | _ =>
      Except.ok (false, inst,
        { st0 with questions := alist.set st0.questions path none })

/-- A violation reported by the base Draft-4 engine for a leaf value. -/
inductive BaseErr where
  | typeErr (t : String) (v : Value) : BaseErr
  | enumErr (v : Value) : BaseErr
deriving DecidableEq, Repr

/-- Draft-4 `type` keyword check for the primitive types the repository's
schemas use (`true` means the value conforms). -/
def typeCheck (t : String) (v : Value) : Bool :=
  match t with
  | "integer" =>
    match v with
    | Value.vInt _ => true
    | _ => false
  | "number" =>
    match v with
    | Value.vInt _ => true
    | _ => false
  | "string" =>
    match v with
    | Value.vStr _ => true
    | _ => false
  | "boolean" =>
    match v with
    | Value.vBool _ => true
    | _ => false
  | "null" =>
    match v with
    | Value.vNull => true
    | _ => false
  | _ => true

/-- `Draft4Validator.iter_errors(value, subschema)` for a leaf property:
the `type` and `enum` keyword checks (the `default` keyword is an
annotation the base engine ignores). -/
def baseIterErrors (s : PropSchema) (v : Value) : List BaseErr :=
  (match s.type with
   | some t => if typeCheck t v then [] else [BaseErr.typeErr t v]
   | none => []) ++
  (match s.enum with
   | some es => if v ∈ es then [] else [BaseErr.enumErr v]
   | none => [])

/-- An error yielded to the caller by `QueristValidator.iter_errors`:
either an unrecovered `RequiredError` or a base-engine violation
(re-validation of a property value, line 226). -/
inductive YieldErr where
  | required (prop : String) : YieldErr
  | base (prop : String) (e : BaseErr) : YieldErr
deriving DecidableEq, Repr

/-- The running state of one `iter_errors` traversal: the (mutated)
container instance, the orchestrator state, the errors yielded so far, and
the pending Python exception, if one escaped (`crashed` set means the
generator raised; later events are never processed). -/
structure RunState where
  inst : Dict
  st : OrchState
  yielded : List YieldErr
  crashed : Option PyExc
deriving Repr

/-- Lines 222–228 of the source, shared by all resolvable error kinds:
after `_resolve_default` (whose exception, if any, escapes the generator),
a required error whose property is still absent is yielded; a property now
present is re-validated against its subschema by the base engine and those
violations are yielded. -/
def afterResolve (r : RunState) (prop : String) (psub : PropSchema) (isReq : Bool)
    (res : Except PyExc (Bool × Dict × OrchState)) : RunState :=
  match res with
  | Except.error e => { r with crashed := some e }
  | Except.ok (_, inst', st') =>
    match alist.find inst' prop with
    | none =>
      if isReq then
        { r with
          inst := inst'
          st := st'
          yielded := r.yielded ++ [YieldErr.required prop] }
      else { r with inst := inst', st := st' }
    | some v =>
      { r with
        inst := inst'
        st := st'
        yielded := r.yielded ++ (baseIterErrors psub v).map (YieldErr.base prop) }

/-- The body of the `for error in ...` loop of
`QueristValidator.iter_errors` (lines 212–231), for one extended error of
kind `kind` about property `prop` of the container at `cpath`. -/
def handleErr (oracle : Nat → Value) (props : List (String × PropSchema))
    (cpath : SPath) (r : RunState) (kind : ErrKind) (prop : String) : RunState :=
  match r.crashed with
  | some _ => r
  | none =>
    match kind with
    | ErrKind.requiredE =>
      match ((alist.find props prop).getD emptySchema).default with
      | none =>
        -- line 219: required error with no `default` key in the subschema
        { r with yielded := r.yielded ++ [YieldErr.required prop] }
      | some _ =>
        afterResolve r prop ((alist.find props prop).getD emptySchema) true
          (resolveDefault oracle props cpath r.st r.inst ErrKind.requiredE prop
            ((alist.find props prop).getD emptySchema))
    | _ =>
      afterResolve r prop ((alist.find props prop).getD emptySchema) false
        (resolveDefault oracle props cpath r.st r.inst kind prop
          ((alist.find props prop).getD emptySchema))

/-- First loop of `set_defaults`: for each schema property absent from the
instance whose subschema has a `default` key, a `DefaultHandler` signal is
emitted and handled.  The missing-check reads the instance as already
mutated by earlier resolutions (generator semantics). -/
def phaseDefaults (oracle : Nat → Value) (props : List (String × PropSchema))
    (cpath : SPath) : List (String × PropSchema) → RunState → RunState
  | [], r => r
  | (prop, sub) :: rest, r =>
    let r' :=
      if r.crashed.isNone ∧ (alist.find r.inst prop).isNone ∧ sub.default.isSome then
        handleErr oracle props cpath r ErrKind.defaultH prop
      else r
    phaseDefaults oracle props cpath rest r'

/-- Handling of the base errors one present property produced
(each wrapped as a `PropertyError` and handled). -/
def phasePropertyErrs (oracle : Nat → Value) (props : List (String × PropSchema))
    (cpath : SPath) (prop : String) : List BaseErr → RunState → RunState
  | [], r => r
  | _ :: rest, r =>
    phasePropertyErrs oracle props cpath prop rest
      (handleErr oracle props cpath r ErrKind.propertyE prop)

/-- Second loop of `set_defaults`: `validate_properties` re-checks every
property present in the (by now partially repaired) instance against its
subschema; genuine violations become `PropertyError`s and are handled. -/
def phaseProperties (oracle : Nat → Value) (props : List (String × PropSchema))
    (cpath : SPath) : List (String × PropSchema) → RunState → RunState
  | [], r => r
  | (prop, sub) :: rest, r =>
    let r' :=
      if r.crashed.isSome then r
      else
        match alist.find r.inst prop with
        | some v => phasePropertyErrs oracle props cpath prop (baseIterErrors sub v) r
        | none => r
    phaseProperties oracle props cpath rest r'

/-- `required_default_d4`: a `RequiredError` for every declared-required
property absent from the (current) instance, each handled by the
orchestrator loop. -/
def phaseRequired (oracle : Nat → Value) (props : List (String × PropSchema))
    (cpath : SPath) : List String → RunState → RunState
  | [], r => r
  | prop :: rest, r =>
    let r' :=
      if r.crashed.isNone ∧ (alist.find r.inst prop).isNone then
        handleErr oracle props cpath r ErrKind.requiredE prop
      else r
    phaseRequired oracle props cpath rest r'

/-- The state persisting across top-level calls on one orchestrator
instance: the answer cache and the instrumentation logs.  (`self._questions`
and `self._keys` are reset at the start of every `iter_errors` call.) -/
structure Persist where
  answers : AnswerCache
  askLog : List (SPath × Option Value)
  created : List SPath
deriving Repr

/-- One top-level `QueristValidator.iter_errors(instance)` call over a
container of properties `props` with required list `requiredL`, located at
`cpath` in the document.  Resets the question and key caches, then runs the
extended validator's error stream (properties keyword, then required
keyword) through the orchestration loop. -/
def runIterErrors (oracle : Nat → Value) (props : List (String × PropSchema))
    (requiredL : List String) (cpath : SPath) (p : Persist) (inst : Dict) : RunState :=
  let st0 : OrchState := { questions := []
                           answers := p.answers
                           keys := []
                           askLog := p.askLog
                           created := p.created }
  let r0 : RunState := { inst := inst, st := st0, yielded := [], crashed := none }
  phaseRequired oracle props cpath requiredL
    (phaseProperties oracle props cpath props
      (phaseDefaults oracle props cpath props r0))

/-- A fresh-instrumentation run: empty ask log and creation log. -/
def freshRun (oracle : Nat → Value) (props : List (String × PropSchema))
    (requiredL : List String) (cpath : SPath) (answers0 : AnswerCache)
    (inst : Dict) : RunState :=
  runIterErrors oracle props requiredL cpath ⟨answers0, [], []⟩ inst

/-- `ConsoleQuestion.CMD_BREAK_ANSWER = "\q"` (a literal backslash-q). -/
def CMD_BREAK_ANSWER : Value := Value.vStr "\\q"

/-- `Question._max_iterations`. -/
def maxIterations : Nat := 5

/-- ASCII whitespace as stripped by Python `int`. -/
def isSpaceChar (c : Char) : Bool :=
  c = ' ' ∨ c = '\t' ∨ c = '\n' ∨ c = '\r'

/-- Python `int(s)` on a string: optional surrounding whitespace, optional
sign, one or more decimal digits; otherwise `ValueError`. -/
def pyIntOfString (s : String) : Option Int :=
  let cs := ((s.data.dropWhile isSpaceChar).reverse.dropWhile isSpaceChar).reverse
  let signed : Bool × List Char :=
    match cs with
    | '-' :: rest => (true, rest)
    | '+' :: rest => (false, rest)
    | _ => (false, cs)
  if signed.2 ≠ [] ∧ signed.2.all Char.isDigit then
    let mag : Int := Int.ofNat (signed.2.foldl (fun n c => n * 10 + (c.toNat - '0'.toNat)) 0)
    some (if signed.1 then -mag else mag)
  else none

/-- Python `int(x)` on the scalar values: parse strings, pass integers
through, booleans are 0/1, `None` raises `TypeError`. -/
def pyInt : Value → Except PyExc Int
  | Value.vStr s =>
    match pyIntOfString s with
    | some n => Except.ok n
    | none => Except.error PyExc.valueError
  | Value.vInt n => Except.ok n
  | Value.vBool b => Except.ok (if b then 1 else 0)
  | Value.vNull => Except.error PyExc.typeError

/-- Python list indexing `l[i]` with negative-index support;
out of range raises `IndexError`. -/
def pyIndex (l : List Value) (i : Int) : Except PyExc Value :=
  if 0 ≤ i ∧ i < Int.ofNat l.length then Except.ok (l.getD i.toNat Value.vNull)
  else if -(Int.ofNat l.length) ≤ i ∧ i < 0 then
    Except.ok (l.getD (i + Int.ofNat l.length).toNat Value.vNull)
  else Except.error PyExc.indexError

/-- The retry loop of `ConsoleQuestion.ask` (lines 125–151).  `inp i` is
what `self._input(...)` returns on its i-th call; `fuel` counts the
remaining iterations of `range(self._max_iterations)`.  Exhausting the loop
hits the `for ... else` branch: `answer = ''`.  Inside the enum branch only
`TypeError` is caught, so `int(answer)` on a non-numeric string escapes as
`ValueError`, and an out-of-range index escapes as `IndexError`. -/
def consoleAskLoop (q : Question) (inp : Nat → Value) : Nat → Nat → Except PyExc Value
  | 0, _ => Except.ok (Value.vStr "")
  | fuel + 1, i =>
    let answer := inp i
    if answer = CMD_BREAK_ANSWER then Except.ok Value.vNull
    else if answer = Value.vStr "" then
      if truthy q.default_value then Except.ok q.default_value
      else if ¬ q.required then Except.ok (Value.vStr "")
      else consoleAskLoop q inp fuel (i + 1)
    else
      match q.enum with
      | some es =>
        if es.isEmpty then Except.ok answer
        else if answer ∈ es then Except.ok answer
        else
          match pyInt answer with
          | Except.ok n =>
            match pyIndex es n with
            | Except.ok v => Except.ok v
            | Except.error e => Except.error e
          | Except.error PyExc.typeError => consoleAskLoop q inp fuel (i + 1)
          | Except.error e => Except.error e
      | none => Except.ok answer

/-- `ConsoleQuestion.ask`. -/
def consoleAsk (q : Question) (inp : Nat → Value) : Except PyExc Value :=
  consoleAskLoop q inp maxIterations 0

/-- One draw of the random source backing `AutoAnswers`: a natural number
(drives `randint` and `choice`), a stream of letter indices (drives
`_random_word`), and a coin (drives `choice([True, False])`). -/
structure RandDraw where
  nat0 : Nat
  word : Nat → Nat
  coin : Bool

/-- The lowercase alphabet of `AutoAnswers._random_word`. -/
def letters : List Char := "abcdefghijklmnopqrstuvwxyz".data

/-- `AutoAnswers._random_word(length)`. -/
def randomWord (g : Nat → Nat) (len : Nat) : String :=
  String.mk ((List.range len).map (fun i => letters.getD (g i % 26) 'a'))

/-- The type-directed arm of `AutoAnswers._random_answer` (the `mapping`
dict): `randint(0, 1000)` for `"integer"`, a 10-letter word for
`"string"`, a coin for `"bool"`; empty string for any other type. -/
def autoByType (q : Question) (r : RandDraw) : Value :=
  match q.qtype with
  | some "integer" => Value.vInt (Int.ofNat (r.nat0 % 1001))
  | some "string" => Value.vStr (randomWord r.word 10)
  | some "bool" => Value.vBool r.coin
  | _ => Value.vStr ""

/-- `AutoAnswers._random_answer`: a random enum member when a (truthy) enum
is declared, else the type-directed draw. -/
def randomAnswer (q : Question) (r : RandDraw) : Value :=
  match q.enum with
  | some es =>
    if es.isEmpty then autoByType q r else es.getD (r.nat0 % es.length) Value.vNull
  | none => autoByType q r

/-- `AutoAnswers.ask`: the inherited console loop with `_input` replaced by
a fresh random answer per call (`rnd i` is the i-th draw). -/
def autoAsk (q : Question) (rnd : Nat → RandDraw) : Except PyExc Value :=
  consoleAsk q (fun i => randomAnswer q (rnd i))

/-! ### Association-list lemmas -/

theorem alist.find_set_self {κ α : Type} [DecidableEq κ] (l : List (κ × α)) (k : κ) (v : α) :
    alist.find (alist.set l k v) k = some v := by
  induction l with
  | nil => simp [alist.set, alist.find]
  | cons e t ih =>
    obtain ⟨k', v'⟩ := e
    by_cases hk : k' = k
    · subst hk
      simp [alist.set, alist.find]
    · simp [alist.set, alist.find, hk, ih]

theorem alist.find_set_ne {κ α : Type} [DecidableEq κ] (l : List (κ × α)) (k k' : κ) (v : α)
    (h : k' ≠ k) : alist.find (alist.set l k v) k' = alist.find l k' := by
  have h' : k ≠ k' := Ne.symm h
  induction l with
  | nil => simp [alist.set, alist.find, h']
  | cons e t ih =>
    obtain ⟨k'', v''⟩ := e
    by_cases hk : k'' = k
    · subst hk
      simp [alist.set, alist.find, h']
    · simp [alist.set, alist.find, hk, ih]

theorem alist.mem_set {κ α : Type} [DecidableEq κ] (l : List (κ × α)) (k : κ) (v : α)
    (x : κ × α) (hx : x ∈ alist.set l k v) : x ∈ l ∨ x = (k, v) := by
  induction l with
  | nil =>
    simp [alist.set] at hx
    exact Or.inr hx
  | cons e t ih =>
    obtain ⟨k', v'⟩ := e
    by_cases hk : k' = k
    · subst hk
      simp [alist.set] at hx
      rcases hx with h | h
      · exact Or.inr h
      · exact Or.inl (List.mem_cons_of_mem _ h)
    · simp [alist.set, hk] at hx
      rcases hx with h | h
      · exact Or.inl (by simp [h])
      · rcases ih h with h' | h'
        · exact Or.inl (List.mem_cons_of_mem _ h')
        · exact Or.inr h'

theorem alist.find_isSome_set {κ α : Type} [DecidableEq κ] (l : List (κ × α)) (k k' : κ)
    (v : α) (h : (alist.find l k').isSome) : (alist.find (alist.set l k v) k').isSome := by
  by_cases hk : k' = k
  · subst hk
    simp [alist.find_set_self]
  · rwa [alist.find_set_ne _ _ _ _ hk]

theorem alist.find_eq_some_split {κ α : Type} [DecidableEq κ] (l : List (κ × α)) (k : κ)
    (v : α) (h : alist.find l k = some v) :
    ∃ l₁ l₂, l = l₁ ++ (k, v) :: l₂ ∧ ∀ e ∈ l₁, e.1 ≠ k := by
  induction l with
  | nil => simp [alist.find] at h
  | cons e t ih =>
    obtain ⟨k', v'⟩ := e
    by_cases hk : k' = k
    · subst hk
      simp [alist.find] at h
      subst h
      exact ⟨[], t, by simp⟩
    · simp [alist.find, hk] at h
      obtain ⟨l₁, l₂, heq, hne⟩ := ih h
      refine ⟨(k', v') :: l₁, l₂, by simp [heq], ?_⟩
      intro e he
      rcases List.mem_cons.mp he with h' | h'
      · subst h'
        exact hk
      · exact hne e h'

/-- Property paths under a common container path are injective. -/
theorem spath_inj (cpath : SPath) (a b : String) (h : cpath ++ [a] = cpath ++ [b]) : a = b := by
  have := List.append_cancel_left h
  simpa using this

/-- The container path of a property path: `path[:-1]`. -/
theorem spath_dropLast (cpath : SPath) (a : String) : (cpath ++ [a]).dropLast = cpath := by
  simp

/-! ### Frame lemmas for `askStep` -/

/-- A successful `_ask` never touches the question cache or the creation
log, and extends the ask log only with invocations for its own path. -/
theorem askStep_ok_frame (oracle : Nat → Value) (props : List (String × PropSchema))
    (inst : Dict) (st : OrchState) (path : SPath) (prop : String) (v : Value)
    (st' : OrchState) (h : askStep oracle props inst st path prop = Except.ok (v, st')) :
    st'.questions = st.questions ∧ st'.created = st.created ∧
    ∃ t, st'.askLog = st.askLog ++ t ∧ ∀ ev ∈ t, ev.1 = path := by
  simp only [askStep] at h
  split at h
  · exact absurd h (by simp)
  · split at h
    · exact absurd h (by simp)
    · split at h
      · cases h
        refine ⟨rfl, rfl, [(path, none)], by simp, by simp⟩
      · split at h
        · cases h
          exact ⟨rfl, rfl, [], by simp, by simp⟩
        · rename_i kv h1 h2 x heq
          cases h
          exact ⟨rfl, rfl, [(path, some kv)], by simp, by simp⟩

/-! ### Frame lemmas for `resolveWrite`, `resolveDefault`, `handleErr` -/

/-- The property an error yielded to the caller is about. -/
def yieldProp : YieldErr → String
  | YieldErr.required p => p
  | YieldErr.base p _ => p

theorem resolveWrite_ok_frame (oracle : Nat → Value) (props : List (String × PropSchema))
    (st : OrchState) (inst : Dict) (path : SPath) (prop : String)
    (qd : Option Question × Value) (b : Bool) (inst' : Dict) (st' : OrchState)
    (h : resolveWrite oracle props st inst path prop qd = Except.ok (b, inst', st')) :
    (∀ pr', pr' ≠ prop → alist.find inst' pr' = alist.find inst pr') ∧
    (alist.find inst' prop).isSome ∧
    st'.questions = st.questions ∧ st'.created = st.created ∧
    ∃ t, st'.askLog = st.askLog ++ t ∧ ∀ ev ∈ t, ev.1 = path := by
  simp only [resolveWrite] at h
  split at h
  · split at h
    · exact absurd h (by simp)
    · rename_i ans st1 heq
      cases h
      obtain ⟨hq, hc, t, hlog, hev⟩ := askStep_ok_frame _ _ _ _ _ _ _ _ heq
      refine ⟨?_, ?_, hq, hc, t, hlog, hev⟩
      · intro pr' hne
        exact alist.find_set_ne _ _ _ _ hne
      · simp [alist.find_set_self]
  · cases h
    refine ⟨?_, ?_, rfl, rfl, [], by simp, by simp⟩
    · intro pr' hne
      exact alist.find_set_ne _ _ _ _ hne
    · simp [alist.find_set_self]

theorem resolveDefault_ok_frame (oracle : Nat → Value) (props : List (String × PropSchema))
    (cpath : SPath) (st : OrchState) (inst : Dict) (kind : ErrKind) (prop : String)
    (psub : PropSchema) (b : Bool) (inst' : Dict) (st' : OrchState)
    (h : resolveDefault oracle props cpath st inst kind prop psub = Except.ok (b, inst', st')) :
    (∀ pr', pr' ≠ prop → alist.find inst' pr' = alist.find inst pr') ∧
    (inst' = inst ∨ (alist.find inst' prop).isSome) ∧
    (∀ q, q ≠ cpath ++ [prop] → alist.find st'.questions q = alist.find st.questions q) ∧
    (∀ q e, alist.find st.questions q = some e → alist.find st'.questions q = some e) ∧
    (∃ t, st'.askLog = st.askLog ++ t ∧ ∀ ev ∈ t, ev.1 = cpath ++ [prop]) := by
  simp only [resolveDefault] at h
  split at h
  · exact absurd h (by simp)
  · rename_i qd hfound
    obtain ⟨hf, hsome, hq, hc, t, hlog, hev⟩ :=
      resolveWrite_ok_frame _ _ _ _ _ _ _ _ _ _ h
    exact ⟨hf, Or.inr hsome, fun q hne => by rw [hq], fun q e he => by rw [hq]; exact he,
      t, by rw [hlog], hev⟩
  · rename_i hnotfound
    split at h
    · rename_i d hd
      obtain ⟨hf, hsome, hq, hc, t, hlog, hev⟩ :=
        resolveWrite_ok_frame _ _ _ _ _ _ _ _ _ _ h
      refine ⟨hf, Or.inr hsome, ?_, ?_, t, by rw [hlog], hev⟩
      · intro q hne
        rw [hq]
        exact alist.find_set_ne _ _ _ _ hne
      · intro q e he
        rw [hq]
        by_cases hqe : q = cpath ++ [prop]
        · subst hqe
          rw [hnotfound] at he
          cases he
        · rw [alist.find_set_ne _ _ _ _ hqe]
          exact he
    · cases h
      refine ⟨fun pr' _ => rfl, Or.inl rfl, ?_, ?_, [], by simp, by simp⟩
      · intro q hne
        exact alist.find_set_ne _ _ _ _ hne
      · intro q e he
        by_cases hqe : q = cpath ++ [prop]
        · subst hqe
          rw [hnotfound] at he
          cases he
        · rw [alist.find_set_ne _ _ _ _ hqe]
          exact he


/-- Frame lemma for the shared post-resolution step, given the frame facts
of the resolution result. -/
theorem afterResolve_frame (r : RunState) (prop : String) (psub : PropSchema)
    (isReq : Bool) (cpath : SPath)
    (res : Except PyExc (Bool × Dict × OrchState))
    (hres : ∀ b inst' st', res = Except.ok (b, inst', st') →
      (∀ pr', pr' ≠ prop → alist.find inst' pr' = alist.find r.inst pr') ∧
      (inst' = r.inst ∨ (alist.find inst' prop).isSome) ∧
      (∀ q, q ≠ cpath ++ [prop] → alist.find st'.questions q = alist.find r.st.questions q) ∧
      (∀ q e, alist.find r.st.questions q = some e → alist.find st'.questions q = some e) ∧
      (∃ t, st'.askLog = r.st.askLog ++ t ∧ ∀ ev ∈ t, ev.1 = cpath ++ [prop])) :
    (∀ pr', pr' ≠ prop →
      alist.find (afterResolve r prop psub isReq res).inst pr' = alist.find r.inst pr') ∧
    ((alist.find r.inst prop).isSome →
      (alist.find (afterResolve r prop psub isReq res).inst prop).isSome) ∧
    (∀ q, q ≠ cpath ++ [prop] →
      alist.find (afterResolve r prop psub isReq res).st.questions q =
        alist.find r.st.questions q) ∧
    (∀ q e, alist.find r.st.questions q = some e →
      alist.find (afterResolve r prop psub isReq res).st.questions q = some e) ∧
    (∃ t, (afterResolve r prop psub isReq res).st.askLog = r.st.askLog ++ t ∧
      ∀ ev ∈ t, ev.1 = cpath ++ [prop]) ∧
    (∃ t, (afterResolve r prop psub isReq res).yielded = r.yielded ++ t ∧
      ∀ e ∈ t, yieldProp e = prop) := by
  unfold afterResolve
  split
  · exact ⟨fun _ _ => rfl, fun h => h, fun _ _ => rfl, fun _ _ h => h,
      ⟨[], by simp, by simp⟩, ⟨[], by simp, by simp⟩⟩
  · rename_i b inst' st'
    obtain ⟨hf, hpres, hqne, hqkeep, hlog⟩ := hres b inst' st' rfl
    have hpres' : (alist.find r.inst prop).isSome → (alist.find inst' prop).isSome := by
      intro hsome
      rcases hpres with h | h
      · rwa [h]
      · exact h
    split
    · rename_i hnone
      have hinst : (alist.find r.inst prop).isSome →
          (alist.find inst' prop).isSome := hpres'
      split
      · refine ⟨hf, ?_, hqne, hqkeep, hlog,
          ⟨[YieldErr.required prop], by simp, ?_⟩⟩
        · intro hsome
          have := hinst hsome
          rw [hnone] at this
          simp at this
        · intro e he
          simp at he
          subst he
          rfl
      · refine ⟨hf, ?_, hqne, hqkeep, hlog, ⟨[], by simp, by simp⟩⟩
        intro hsome
        have := hinst hsome
        rw [hnone] at this
        simp at this
    · rename_i v hsome'
      refine ⟨hf, ?_, hqne, hqkeep, hlog, ⟨_, rfl, ?_⟩⟩
      · intro _
        simp [hsome']
      · intro e he
        simp at he
        obtain ⟨x, _, hx⟩ := he
        rw [← hx]
        rfl

/-- Combined frame lemma for one orchestration-loop step. -/
theorem handleErr_frame (oracle : Nat → Value) (props : List (String × PropSchema))
    (cpath : SPath) (r : RunState) (kind : ErrKind) (prop : String) :
    (∀ pr', pr' ≠ prop →
      alist.find (handleErr oracle props cpath r kind prop).inst pr' = alist.find r.inst pr') ∧
    ((alist.find r.inst prop).isSome →
      (alist.find (handleErr oracle props cpath r kind prop).inst prop).isSome) ∧
    (∀ q, q ≠ cpath ++ [prop] →
      alist.find (handleErr oracle props cpath r kind prop).st.questions q =
        alist.find r.st.questions q) ∧
    (∀ q e, alist.find r.st.questions q = some e →
      alist.find (handleErr oracle props cpath r kind prop).st.questions q = some e) ∧
    (∃ t, (handleErr oracle props cpath r kind prop).st.askLog = r.st.askLog ++ t ∧
      ∀ ev ∈ t, ev.1 = cpath ++ [prop]) ∧
    (∃ t, (handleErr oracle props cpath r kind prop).yielded = r.yielded ++ t ∧
      ∀ e ∈ t, yieldProp e = prop) := by
  unfold handleErr
  split
  · exact ⟨fun _ _ => rfl, fun h => h, fun _ _ => rfl, fun _ _ h => h,
      ⟨[], by simp, by simp⟩, ⟨[], by simp, by simp⟩⟩
  · split
    · split
      · exact ⟨fun _ _ => rfl, fun h => h, fun _ _ => rfl, fun _ _ h => h,
          ⟨[], by simp, by simp⟩,
          ⟨[YieldErr.required prop], by simp, by intro e he; simp at he; subst he; rfl⟩⟩
      · exact afterResolve_frame r prop _ true cpath _
          (fun b inst' st' hok => resolveDefault_ok_frame _ _ _ _ _ _ _ _ _ _ _ hok)
    · exact afterResolve_frame r prop _ false cpath _
        (fun b inst' st' hok => resolveDefault_ok_frame _ _ _ _ _ _ _ _ _ _ _ hok)

/-! ### Phase combinators: preservation, composition, crash monotonicity -/

theorem handleErr_of_crashed (oracle : Nat → Value) (props : List (String × PropSchema))
    (cpath : SPath) (r : RunState) (kind : ErrKind) (prop : String) (e : PyExc)
    (h : r.crashed = some e) : handleErr oracle props cpath r kind prop = r := by
  unfold handleErr
  rw [h]

theorem phaseDefaults_preserve (oracle : Nat → Value) (props : List (String × PropSchema))
    (cpath : SPath) (P : RunState → Prop)
    (hP : ∀ r kind prop, P r → P (handleErr oracle props cpath r kind prop)) :
    ∀ (l : List (String × PropSchema)) (r : RunState), P r →
      P (phaseDefaults oracle props cpath l r) := by
  intro l
  induction l with
  | nil => intro r hr; exact hr
  | cons e t ih =>
    intro r hr
    obtain ⟨prop, sub⟩ := e
    simp only [phaseDefaults]
    split
    · exact ih _ (hP _ _ _ hr)
    · exact ih _ hr

theorem phasePropertyErrs_preserve (oracle : Nat → Value) (props : List (String × PropSchema))
    (cpath : SPath) (prop : String) (P : RunState → Prop)
    (hP : ∀ r kind pr, P r → P (handleErr oracle props cpath r kind pr)) :
    ∀ (l : List BaseErr) (r : RunState), P r →
      P (phasePropertyErrs oracle props cpath prop l r) := by
  intro l
  induction l with
  | nil => intro r hr; exact hr
  | cons e t ih =>
    intro r hr
    exact ih _ (hP _ _ _ hr)

theorem phaseProperties_preserve (oracle : Nat → Value) (props : List (String × PropSchema))
    (cpath : SPath) (P : RunState → Prop)
    (hP : ∀ r kind prop, P r → P (handleErr oracle props cpath r kind prop)) :
    ∀ (l : List (String × PropSchema)) (r : RunState), P r →
      P (phaseProperties oracle props cpath l r) := by
  intro l
  induction l with
  | nil => intro r hr; exact hr
  | cons e t ih =>
    intro r hr
    obtain ⟨prop, sub⟩ := e
    simp only [phaseProperties]
    split
    · exact ih _ hr
    · split
      · exact ih _ (phasePropertyErrs_preserve oracle props cpath prop P hP _ _ hr)
      · exact ih _ hr

theorem phaseRequired_preserve (oracle : Nat → Value) (props : List (String × PropSchema))
    (cpath : SPath) (P : RunState → Prop)
    (hP : ∀ r kind prop, P r → P (handleErr oracle props cpath r kind prop)) :
    ∀ (l : List String) (r : RunState), P r →
      P (phaseRequired oracle props cpath l r) := by
  intro l
  induction l with
  | nil => intro r hr; exact hr
  | cons prop t ih =>
    intro r hr
    simp only [phaseRequired]
    split
    · exact ih _ (hP _ _ _ hr)
    · exact ih _ hr

/-- Any property preserved by every loop step is preserved by a whole
top-level `iter_errors` run. -/
theorem runIterErrors_preserve (oracle : Nat → Value) (props : List (String × PropSchema))
    (requiredL : List String) (cpath : SPath) (p : Persist) (inst : Dict)
    (P : RunState → Prop)
    (hP : ∀ r kind prop, P r → P (handleErr oracle props cpath r kind prop))
    (h0 : P { inst := inst,
              st := { questions := [], answers := p.answers, keys := [],
                      askLog := p.askLog, created := p.created },
              yielded := [], crashed := none }) :
    P (runIterErrors oracle props requiredL cpath p inst) :=
  phaseRequired_preserve oracle props cpath P hP _ _
    (phaseProperties_preserve oracle props cpath P hP _ _
      (phaseDefaults_preserve oracle props cpath P hP _ _ h0))

theorem phaseDefaults_append (oracle : Nat → Value) (props : List (String × PropSchema))
    (cpath : SPath) (l₁ l₂ : List (String × PropSchema)) (r : RunState) :
    phaseDefaults oracle props cpath (l₁ ++ l₂) r =
      phaseDefaults oracle props cpath l₂ (phaseDefaults oracle props cpath l₁ r) := by
  induction l₁ generalizing r with
  | nil => simp [phaseDefaults]
  | cons e t ih =>
    obtain ⟨prop, sub⟩ := e
    simp only [List.cons_append, phaseDefaults]
    split
    · exact ih _
    · exact ih _

theorem phaseRequired_append (oracle : Nat → Value) (props : List (String × PropSchema))
    (cpath : SPath) (l₁ l₂ : List String) (r : RunState) :
    phaseRequired oracle props cpath (l₁ ++ l₂) r =
      phaseRequired oracle props cpath l₂ (phaseRequired oracle props cpath l₁ r) := by
  induction l₁ generalizing r with
  | nil => simp [phaseRequired]
  | cons prop t ih =>
    simp only [List.cons_append, phaseRequired]
    split
    · exact ih _
    · exact ih _

/-- A crash is permanent: once `crashed` is set, every later step is a
no-op on it. -/
theorem runIterErrors_crash_monotone (oracle : Nat → Value)
    (props : List (String × PropSchema)) (cpath : SPath) (exc : PyExc) :
    ∀ r kind prop, (fun r => r.crashed = some exc) r →
      (fun r => r.crashed = some exc) (handleErr oracle props cpath r kind prop) := by
  intro r kind prop hr
  rw [handleErr_of_crashed oracle props cpath r kind prop exc hr]
  exact hr

/-! ### C1: static defaults with no question -/

/-- `True` when no ask invocation in the log is for path `p`. -/
def noAskFor (log : List (SPath × Option Value)) (p : SPath) : Bool :=
  log.all (fun ev => decide (ev.1 ≠ p))

theorem noAskFor_append (log t : List (SPath × Option Value)) (p : SPath)
    (h1 : noAskFor log p = true) (h2 : ∀ ev ∈ t, ev.1 ≠ p) :
    noAskFor (log ++ t) p = true := by
  simp only [noAskFor, List.all_append, Bool.and_eq_true]
  constructor
  · exact h1
  · simp only [List.all_eq_true, decide_eq_true_eq]
    exact h2

/-- Resolution through a cached question-cache entry holding no question and
a static value writes exactly that value and leaves the orchestrator state
untouched. -/
theorem resolveDefault_cached_static (oracle : Nat → Value)
    (props : List (String × PropSchema)) (cpath : SPath) (st : OrchState) (inst : Dict)
    (kind : ErrKind) (prop : String) (psub : PropSchema) (dv : Value)
    (hq : alist.find st.questions (cpath ++ [prop]) = some (some (none, dv))) :
    resolveDefault oracle props cpath st inst kind prop psub =
      Except.ok (true, alist.set inst prop dv, st) := by
  simp [resolveDefault, resolveWrite, hq]

/-- First resolution of a property whose default block has a static value
and no question: the entry `(None, value)` is cached for the path and the
value is written. -/
theorem resolveDefault_uncached_static (oracle : Nat → Value)
    (props : List (String × PropSchema)) (cpath : SPath) (st : OrchState) (inst : Dict)
    (kind : ErrKind) (prop : String) (psub : PropSchema) (d : DefaultSpec)
    (hq : alist.find st.questions (cpath ++ [prop]) = none)
    (hblock : psub.default = some (PyDefault.block d))
    (hnoq : d.question = none) :
    resolveDefault oracle props cpath st inst kind prop psub =
      Except.ok (true, alist.set inst prop d.value,
        { st with questions :=
            alist.set st.questions (cpath ++ [prop]) (some (none, d.value)) }) := by
  simp [resolveDefault, resolveWrite, hq, hblock, hnoq]

/-- One loop step for a property whose cached entry is `(None, value)`:
the value is rewritten, the state is unchanged, only base re-validation
errors are yielded. -/
theorem handleErr_cached_static (oracle : Nat → Value)
    (props : List (String × PropSchema)) (cpath : SPath) (r : RunState)
    (kind : ErrKind) (prop : String) (sub : PropSchema) (dv : Value)
    (hcr : r.crashed = none)
    (hlook : alist.find props prop = some sub)
    (hdef : sub.default.isSome)
    (hq : alist.find r.st.questions (cpath ++ [prop]) = some (some (none, dv))) :
    handleErr oracle props cpath r kind prop =
      { r with
        inst := alist.set r.inst prop dv
        yielded := r.yielded ++ (baseIterErrors sub dv).map (YieldErr.base prop) } := by
  obtain ⟨pd, hpd⟩ := Option.isSome_iff_exists.mp hdef
  unfold handleErr
  rw [hcr]
  cases kind with
  | requiredE =>
    simp only [hlook, Option.getD_some, hpd,
      resolveDefault_cached_static oracle props cpath r.st r.inst ErrKind.requiredE prop sub dv hq,
      afterResolve, alist.find_set_self, hcr]
  | defaultH =>
    simp only [hlook, Option.getD_some,
      resolveDefault_cached_static oracle props cpath r.st r.inst ErrKind.defaultH prop sub dv hq,
      afterResolve, alist.find_set_self, hcr]
  | propertyE =>
    simp only [hlook, Option.getD_some,
      resolveDefault_cached_static oracle props cpath r.st r.inst ErrKind.propertyE prop sub dv hq,
      afterResolve, alist.find_set_self, hcr]

/-- The C1 invariant: once the static value is cached and written, every
later loop step keeps it written, keeps the cache entry, and never asks for
this path. -/
theorem invC1_preserved (oracle : Nat → Value) (props : List (String × PropSchema))
    (cpath : SPath) (prop : String) (sub : PropSchema) (d : DefaultSpec)
    (hlook : alist.find props prop = some sub)
    (hblock : sub.default = some (PyDefault.block d))
    (r : RunState) (kind : ErrKind) (pr : String)
    (hinv : alist.find r.st.questions (cpath ++ [prop]) = some (some (none, d.value)) ∧
            alist.find r.inst prop = some d.value ∧
            noAskFor r.st.askLog (cpath ++ [prop]) = true) :
    alist.find (handleErr oracle props cpath r kind pr).st.questions (cpath ++ [prop]) =
        some (some (none, d.value)) ∧
    alist.find (handleErr oracle props cpath r kind pr).inst prop = some d.value ∧
    noAskFor (handleErr oracle props cpath r kind pr).st.askLog (cpath ++ [prop]) = true := by
  obtain ⟨hq, hv, hlog⟩ := hinv
  rcases hcrash : r.crashed with _ | e
  · by_cases hpr : pr = prop
    · subst hpr
      rw [handleErr_cached_static oracle props cpath r kind pr sub d.value hcrash hlook
        (by rw [hblock]; rfl) hq]
      exact ⟨hq, by simp [alist.find_set_self], hlog⟩
    · obtain ⟨hf, _, hqne, _, ⟨t, hlogeq, hev⟩, _⟩ :=
        handleErr_frame oracle props cpath r kind pr
      have hpne : cpath ++ [prop] ≠ cpath ++ [pr] := by
        intro h
        exact hpr (spath_inj cpath prop pr h).symm
      refine ⟨?_, ?_, ?_⟩
      · rw [hqne _ hpne]
        exact hq
      · rw [hf prop (fun h => hpr h.symm)]
        exact hv
      · rw [hlogeq]
        refine noAskFor_append _ _ _ hlog ?_
        intro ev hevt
        rw [hev ev hevt]
        exact fun h => hpne h.symm
  · rw [handleErr_of_crashed oracle props cpath r kind pr e hcrash]
    exact ⟨hq, hv, hlog⟩

/-- First handling of a missing property whose default block has a static
value and no question: the value is written, the entry is cached, no ask
happens. -/
theorem handleErr_establish_static (oracle : Nat → Value)
    (props : List (String × PropSchema)) (cpath : SPath) (r : RunState) (prop : String)
    (sub : PropSchema) (d : DefaultSpec)
    (hcr : r.crashed = none)
    (hlook : alist.find props prop = some sub)
    (hblock : sub.default = some (PyDefault.block d))
    (hnoq : d.question = none)
    (hq : alist.find r.st.questions (cpath ++ [prop]) = none) :
    handleErr oracle props cpath r ErrKind.defaultH prop =
      { r with
        inst := alist.set r.inst prop d.value
        st := { r.st with
          questions := alist.set r.st.questions (cpath ++ [prop]) (some (none, d.value)) }
        yielded := r.yielded ++ (baseIterErrors sub d.value).map (YieldErr.base prop) } := by
  unfold handleErr
  rw [hcr]
  simp only [hlook, Option.getD_some,
    resolveDefault_uncached_static oracle props cpath r.st r.inst ErrKind.defaultH prop sub d
      hq hblock hnoq,
    afterResolve, alist.find_set_self, hcr]

/-- A property preserved by every step whose handled property is a key of
`l` is preserved by `phaseDefaults` over `l`. -/
theorem phaseDefaults_preserve_keys (oracle : Nat → Value)
    (props : List (String × PropSchema)) (cpath : SPath) (P : RunState → Prop) :
    ∀ (l : List (String × PropSchema)),
      (∀ r kind pr, pr ∈ l.map Prod.fst → P r → P (handleErr oracle props cpath r kind pr)) →
      ∀ r, P r → P (phaseDefaults oracle props cpath l r) := by
  intro l
  induction l with
  | nil => intro _ r hr; exact hr
  | cons e t ih =>
    intro hP r hr
    obtain ⟨prop, sub⟩ := e
    simp only [phaseDefaults]
    split
    · exact ih (fun r' k pr hm => hP r' k pr (by simp [hm])) _
        (hP r ErrKind.defaultH prop (by simp) hr)
    · exact ih (fun r' k pr hm => hP r' k pr (by simp [hm])) _ hr

/-- The C1 pre-invariant: while the property has not been handled yet, it
stays missing, uncached, and unasked, through steps about other
properties. -/
theorem preInvC1_preserved (oracle : Nat → Value) (props : List (String × PropSchema))
    (cpath : SPath) (prop : String) (r : RunState) (kind : ErrKind) (pr : String)
    (hpr : pr ≠ prop)
    (h : alist.find r.inst prop = none ∧
         alist.find r.st.questions (cpath ++ [prop]) = none ∧
         noAskFor r.st.askLog (cpath ++ [prop]) = true) :
    alist.find (handleErr oracle props cpath r kind pr).inst prop = none ∧
    alist.find (handleErr oracle props cpath r kind pr).st.questions (cpath ++ [prop]) = none ∧
    noAskFor (handleErr oracle props cpath r kind pr).st.askLog (cpath ++ [prop]) = true := by
  obtain ⟨hi, hq, hlog⟩ := h
  obtain ⟨hf, _, hqne, _, ⟨t, hlogeq, hev⟩, _⟩ := handleErr_frame oracle props cpath r kind pr
  have hpne : cpath ++ [prop] ≠ cpath ++ [pr] := by
    intro hcontra
    exact hpr (spath_inj cpath prop pr hcontra).symm
  refine ⟨?_, ?_, ?_⟩
  · rw [hf prop (fun hcontra => hpr hcontra.symm)]
    exact hi
  · rw [hqne _ hpne]
    exact hq
  · rw [hlogeq]
    refine noAskFor_append _ _ _ hlog ?_
    intro ev hevt
    rw [hev ev hevt]
    exact fun hcontra => hpne hcontra.symm

/-- C1: a document missing a property whose schema has a default block with
a static value and no question key gets exactly that value written at the
property's location, and no question is ever asked for that path. -/
theorem c1_static_default_injected (oracle : Nat → Value)
    (props : List (String × PropSchema)) (requiredL : List String) (cpath : SPath)
    (answers0 : AnswerCache) (inst0 : Dict) (prop : String) (sub : PropSchema)
    (d : DefaultSpec)
    (hlook : alist.find props prop = some sub)
    (hblock : sub.default = some (PyDefault.block d))
    (hnoq : d.question = none)
    (hmiss : alist.find inst0 prop = none)
    (hok : (freshRun oracle props requiredL cpath answers0 inst0).crashed = none) :
    alist.find (freshRun oracle props requiredL cpath answers0 inst0).inst prop =
      some d.value ∧
    noAskFor (freshRun oracle props requiredL cpath answers0 inst0).st.askLog
      (cpath ++ [prop]) = true := by
  obtain ⟨l₁, l₂, hsplit, hne⟩ := alist.find_eq_some_split props prop sub hlook
  have hrun : freshRun oracle props requiredL cpath answers0 inst0 =
      phaseRequired oracle props cpath requiredL
        (phaseProperties oracle props cpath props
          (phaseDefaults oracle props cpath props
            ⟨inst0, ⟨[], answers0, [], [], []⟩, [], none⟩)) := rfl
  have hPD := phaseDefaults_append oracle props cpath l₁ ((prop, sub) :: l₂)
    ⟨inst0, ⟨[], answers0, [], [], []⟩, [], none⟩
  rw [← hsplit] at hPD
  have hpre : alist.find (phaseDefaults oracle props cpath l₁
        ⟨inst0, ⟨[], answers0, [], [], []⟩, [], none⟩).inst prop = none ∧
      alist.find (phaseDefaults oracle props cpath l₁
        ⟨inst0, ⟨[], answers0, [], [], []⟩, [], none⟩).st.questions (cpath ++ [prop]) = none ∧
      noAskFor (phaseDefaults oracle props cpath l₁
        ⟨inst0, ⟨[], answers0, [], [], []⟩, [], none⟩).st.askLog (cpath ++ [prop]) = true := by
    refine phaseDefaults_preserve_keys oracle props cpath
      (fun r => alist.find r.inst prop = none ∧
        alist.find r.st.questions (cpath ++ [prop]) = none ∧
        noAskFor r.st.askLog (cpath ++ [prop]) = true) l₁ ?_ _ ⟨hmiss, rfl, rfl⟩
    intro r kind pr hm hr
    refine preInvC1_preserved oracle props cpath prop r kind pr ?_ hr
    intro hcontra
    subst hcontra
    obtain ⟨e, hmem, heq⟩ := List.mem_map.mp hm
    exact hne e hmem heq
  set rA := phaseDefaults oracle props cpath l₁
    ⟨inst0, ⟨[], answers0, [], [], []⟩, [], none⟩ with hrA
  rcases hcrA : rA.crashed with _ | e
  · -- the establishing step fires
    have hstep : phaseDefaults oracle props cpath ((prop, sub) :: l₂) rA =
        phaseDefaults oracle props cpath l₂
          (handleErr oracle props cpath rA ErrKind.defaultH prop) := by
      simp only [phaseDefaults]
      rw [if_pos]
      exact ⟨by simp [hcrA], by simp [hpre.1], by simp [hblock]⟩
    have hest := handleErr_establish_static oracle props cpath rA prop sub d hcrA hlook
      hblock hnoq hpre.2.1
    have hinv : alist.find (handleErr oracle props cpath rA ErrKind.defaultH prop).st.questions
          (cpath ++ [prop]) = some (some (none, d.value)) ∧
        alist.find (handleErr oracle props cpath rA ErrKind.defaultH prop).inst prop =
          some d.value ∧
        noAskFor (handleErr oracle props cpath rA ErrKind.defaultH prop).st.askLog
          (cpath ++ [prop]) = true := by
      rw [hest]
      exact ⟨by simp [alist.find_set_self], by simp [alist.find_set_self], hpre.2.2⟩
    have hfinal := phaseRequired_preserve oracle props cpath _
      (fun r kind pr => invC1_preserved oracle props cpath prop sub d hlook hblock r kind pr)
      requiredL _
      (phaseProperties_preserve oracle props cpath _
        (fun r kind pr => invC1_preserved oracle props cpath prop sub d hlook hblock r kind pr)
        props _
        (phaseDefaults_preserve oracle props cpath _
          (fun r kind pr => invC1_preserved oracle props cpath prop sub d hlook hblock r kind pr)
          l₂ _ hinv))
    rw [hrun, hPD, hstep]
    exact ⟨hfinal.2.1, hfinal.2.2⟩
  · -- a crash before the property is reached would survive to the end
    exfalso
    have hstep : phaseDefaults oracle props cpath ((prop, sub) :: l₂) rA =
        phaseDefaults oracle props cpath l₂ rA := by
      simp only [phaseDefaults]
      rw [if_neg]
      simp [hcrA]
    have hcfinal := phaseRequired_preserve oracle props cpath (fun r => r.crashed = some e)
      (runIterErrors_crash_monotone oracle props cpath e) requiredL _
      (phaseProperties_preserve oracle props cpath (fun r => r.crashed = some e)
        (runIterErrors_crash_monotone oracle props cpath e) props _
        (phaseDefaults_preserve oracle props cpath (fun r => r.crashed = some e)
          (runIterErrors_crash_monotone oracle props cpath e) l₂ _ hcrA))
    rw [hrun, hPD, hstep] at hok
    rw [hcfinal] at hok
    cases hok

/-! ### C4: Question creation per path -/

/-- Creation discipline of `_resolve_default`: the creation log grows only
by the resolved path, only when that path was uncached, and afterwards the
path is cached. -/
theorem resolveDefault_created_spec (oracle : Nat → Value)
    (props : List (String × PropSchema)) (cpath : SPath) (st : OrchState) (inst : Dict)
    (kind : ErrKind) (prop : String) (psub : PropSchema) (b : Bool) (inst' : Dict)
    (st' : OrchState)
    (h : resolveDefault oracle props cpath st inst kind prop psub = Except.ok (b, inst', st')) :
    st'.created = st.created ∨
      (st'.created = st.created ++ [cpath ++ [prop]] ∧
       alist.find st.questions (cpath ++ [prop]) = none ∧
       (alist.find st'.questions (cpath ++ [prop])).isSome) := by
  simp only [resolveDefault] at h
  split at h
  · exact absurd h (by simp)
  · rename_i qd hfound
    obtain ⟨_, _, hq, hc, _⟩ := resolveWrite_ok_frame _ _ _ _ _ _ _ _ _ _ h
    left
    exact hc
  · rename_i hnotfound
    split at h
    · rename_i d hd
      obtain ⟨_, _, hq, hc, _⟩ := resolveWrite_ok_frame _ _ _ _ _ _ _ _ _ _ h
      rw [hq, hc]
      rcases hdq : d.question with _ | qs
      · left
        simp [hdq]
      · right
        refine ⟨by simp [hdq], hnotfound, ?_⟩
        simp [alist.find_set_self]
    · cases h
      left
      rfl

theorem afterResolve_created (r : RunState) (prop : String) (psub : PropSchema)
    (isReq : Bool) (cpath : SPath) (res : Except PyExc (Bool × Dict × OrchState))
    (hres : ∀ b inst' st', res = Except.ok (b, inst', st') →
      st'.created = r.st.created ∨
        (st'.created = r.st.created ++ [cpath ++ [prop]] ∧
         alist.find r.st.questions (cpath ++ [prop]) = none ∧
         (alist.find st'.questions (cpath ++ [prop])).isSome)) :
    (afterResolve r prop psub isReq res).st.created = r.st.created ∨
      ((afterResolve r prop psub isReq res).st.created = r.st.created ++ [cpath ++ [prop]] ∧
       alist.find r.st.questions (cpath ++ [prop]) = none ∧
       (alist.find (afterResolve r prop psub isReq res).st.questions
         (cpath ++ [prop])).isSome) := by
  unfold afterResolve
  split
  · left
    rfl
  · rename_i b inst' st'
    have hspec := hres b inst' st' rfl
    split
    · split
      · exact hspec
      · exact hspec
    · exact hspec

theorem handleErr_created_spec (oracle : Nat → Value) (props : List (String × PropSchema))
    (cpath : SPath) (r : RunState) (kind : ErrKind) (pr : String) :
    (handleErr oracle props cpath r kind pr).st.created = r.st.created ∨
      ((handleErr oracle props cpath r kind pr).st.created =
         r.st.created ++ [cpath ++ [pr]] ∧
       alist.find r.st.questions (cpath ++ [pr]) = none ∧
       (alist.find (handleErr oracle props cpath r kind pr).st.questions
         (cpath ++ [pr])).isSome) := by
  unfold handleErr
  split
  · left
    rfl
  · split
    · split
      · left
        rfl
      · exact afterResolve_created r pr _ true cpath _
          (fun b inst' st' hok => resolveDefault_created_spec _ _ _ _ _ _ _ _ _ _ _ hok)
    · exact afterResolve_created r pr _ false cpath _
        (fun b inst' st' hok => resolveDefault_created_spec _ _ _ _ _ _ _ _ _ _ _ hok)

/-- The C4 invariant: the creation log has no duplicates and every created
path is cached. -/
theorem invC4_preserved (oracle : Nat → Value) (props : List (String × PropSchema))
    (cpath : SPath) (r : RunState) (kind : ErrKind) (pr : String)
    (h : r.st.created.Nodup ∧
      ∀ q ∈ r.st.created, (alist.find r.st.questions q).isSome) :
    (handleErr oracle props cpath r kind pr).st.created.Nodup ∧
    ∀ q ∈ (handleErr oracle props cpath r kind pr).st.created,
      (alist.find (handleErr oracle props cpath r kind pr).st.questions q).isSome := by
  obtain ⟨hnd, hcache⟩ := h
  obtain ⟨_, _, _, hqkeep, _, _⟩ := handleErr_frame oracle props cpath r kind pr
  have hkeepSome : ∀ q, (alist.find r.st.questions q).isSome →
      (alist.find (handleErr oracle props cpath r kind pr).st.questions q).isSome := by
    intro q hq
    obtain ⟨e, he⟩ := Option.isSome_iff_exists.mp hq
    rw [hqkeep q e he]
    rfl
  rcases handleErr_created_spec oracle props cpath r kind pr with hsame | ⟨happ, hmiss, hnew⟩
  · rw [hsame]
    exact ⟨hnd, fun q hq => hkeepSome q (hcache q hq)⟩
  · rw [happ]
    constructor
    · refine List.Nodup.append hnd (List.nodup_singleton _) ?_
      intro q hq hq'
      simp only [List.mem_singleton] at hq'
      subst hq'
      have hcontra := hcache _ hq
      rw [hmiss] at hcontra
      simp at hcontra
    · intro q hq
      rcases List.mem_append.mp hq with hq | hq
      · exact hkeepSome q (hcache q hq)
      · simp only [List.mem_singleton] at hq
        subst hq
        exact hnew

/-- C4 (amended): within one top-level `iter_errors` call, a `Question` is
constructed at most once per schema path (the per-call question cache
guarantees no duplicate creations inside a call). -/
theorem c4_question_once_per_call (oracle : Nat → Value)
    (props : List (String × PropSchema)) (requiredL : List String) (cpath : SPath)
    (answers0 : AnswerCache) (inst0 : Dict) :
    (freshRun oracle props requiredL cpath answers0 inst0).st.created.Nodup :=
  (runIterErrors_preserve oracle props requiredL cpath ⟨answers0, [], []⟩ inst0
    (fun r => r.st.created.Nodup ∧
      ∀ q ∈ r.st.created, (alist.find r.st.questions q).isSome)
    (fun r kind pr => invC4_preserved oracle props cpath r kind pr)
    ⟨List.nodup_nil, by simp⟩).1

/-! ### C2: required properties with and without default blocks -/

/-- Resolution of a property whose schema has no `default` at all records a
Python-`None` cache entry, writes nothing, and returns `False`. -/
theorem resolveDefault_nodefault (oracle : Nat → Value) (props : List (String × PropSchema))
    (cpath : SPath) (st : OrchState) (inst : Dict) (kind : ErrKind) (prop : String)
    (psub : PropSchema)
    (hq : alist.find st.questions (cpath ++ [prop]) = none)
    (hd : psub.default = none) :
    resolveDefault oracle props cpath st inst kind prop psub =
      Except.ok (false, inst,
        { st with questions := alist.set st.questions (cpath ++ [prop]) none }) := by
  simp [resolveDefault, hq, hd]

/-- Unpacking a cached Python-`None` question entry raises `TypeError`. -/
theorem resolveDefault_cached_noneEntry (oracle : Nat → Value)
    (props : List (String × PropSchema)) (cpath : SPath) (st : OrchState) (inst : Dict)
    (kind : ErrKind) (prop : String) (psub : PropSchema)
    (hq : alist.find st.questions (cpath ++ [prop]) = some none) :
    resolveDefault oracle props cpath st inst kind prop psub =
      Except.error PyExc.typeError := by
  simp [resolveDefault, hq]

/-- Line 219: a required error on a property whose subschema has no
`default` key is yielded unrecovered. -/
theorem handleErr_required_nodefault (oracle : Nat → Value)
    (props : List (String × PropSchema)) (cpath : SPath) (r : RunState) (prop : String)
    (hcr : r.crashed = none)
    (hsub : ((alist.find props prop).getD emptySchema).default = none) :
    handleErr oracle props cpath r ErrKind.requiredE prop =
      { r with yielded := r.yielded ++ [YieldErr.required prop] } := by
  unfold handleErr
  rw [hcr]
  simp [hsub]

/-- A successful resolution against a schema whose default is a structured
block always leaves the property present (line 262 always assigns). -/
theorem resolveDefault_block_writes (oracle : Nat → Value)
    (props : List (String × PropSchema)) (cpath : SPath) (st : OrchState) (inst : Dict)
    (kind : ErrKind) (prop : String) (psub : PropSchema) (d : DefaultSpec)
    (b : Bool) (inst' : Dict) (st' : OrchState)
    (hblock : psub.default = some (PyDefault.block d))
    (h : resolveDefault oracle props cpath st inst kind prop psub = Except.ok (b, inst', st')) :
    (alist.find inst' prop).isSome := by
  simp only [resolveDefault] at h
  split at h
  · exact absurd h (by simp)
  · exact (resolveWrite_ok_frame _ _ _ _ _ _ _ _ _ _ h).2.1
  · split at h
    · exact (resolveWrite_ok_frame _ _ _ _ _ _ _ _ _ _ h).2.1
    · rename_i hnb
      exact absurd hblock (by simp_all)

/-- Yielded errors are never retracted. -/
theorem handleErr_yield_mem (oracle : Nat → Value) (props : List (String × PropSchema))
    (cpath : SPath) (r : RunState) (kind : ErrKind) (pr : String) (e : YieldErr)
    (h : e ∈ r.yielded) : e ∈ (handleErr oracle props cpath r kind pr).yielded := by
  obtain ⟨_, _, _, _, _, ⟨t, ht, _⟩⟩ := handleErr_frame oracle props cpath r kind pr
  rw [ht]
  exact List.mem_append_left t h

/-- The C2 missing-no-default invariant: the property stays absent and its
question-cache entry stays `None`/uncached through every loop step. -/
theorem invC2a_preserved (oracle : Nat → Value) (props : List (String × PropSchema))
    (cpath : SPath) (prop : String)
    (hsub : ((alist.find props prop).getD emptySchema).default = none)
    (r : RunState) (kind : ErrKind) (pr : String)
    (h : alist.find r.inst prop = none ∧
      (alist.find r.st.questions (cpath ++ [prop]) = none ∨
       alist.find r.st.questions (cpath ++ [prop]) = some none)) :
    alist.find (handleErr oracle props cpath r kind pr).inst prop = none ∧
    (alist.find (handleErr oracle props cpath r kind pr).st.questions (cpath ++ [prop]) = none ∨
     alist.find (handleErr oracle props cpath r kind pr).st.questions (cpath ++ [prop]) =
       some none) := by
  obtain ⟨hi, hq⟩ := h
  rcases hcrash : r.crashed with _ | e
  · by_cases hpr : pr = prop
    · subst hpr
      cases kind with
      | requiredE =>
        rw [handleErr_required_nodefault oracle props cpath r pr hcrash hsub]
        exact ⟨hi, hq⟩
      | defaultH =>
        rcases hq with hq | hq
        · unfold handleErr
          rw [hcrash]
          simp only [resolveDefault_nodefault oracle props cpath r.st r.inst
            ErrKind.defaultH pr _ hq hsub, afterResolve, hi]
          exact ⟨hi, Or.inr (by simp [alist.find_set_self])⟩
        · unfold handleErr
          rw [hcrash]
          simp only [resolveDefault_cached_noneEntry oracle props cpath r.st r.inst
            ErrKind.defaultH pr _ hq, afterResolve]
          exact ⟨hi, Or.inr hq⟩
      | propertyE =>
        rcases hq with hq | hq
        · unfold handleErr
          rw [hcrash]
          simp only [resolveDefault_nodefault oracle props cpath r.st r.inst
            ErrKind.propertyE pr _ hq hsub, afterResolve, hi]
          exact ⟨hi, Or.inr (by simp [alist.find_set_self])⟩
        · unfold handleErr
          rw [hcrash]
          simp only [resolveDefault_cached_noneEntry oracle props cpath r.st r.inst
            ErrKind.propertyE pr _ hq, afterResolve]
          exact ⟨hi, Or.inr hq⟩
    · obtain ⟨hf, _, hqne, _, _, _⟩ := handleErr_frame oracle props cpath r kind pr
      have hpne : cpath ++ [prop] ≠ cpath ++ [pr] := by
        intro hcontra
        exact hpr (spath_inj cpath prop pr hcontra).symm
      refine ⟨?_, ?_⟩
      · rw [hf prop (fun hcontra => hpr hcontra.symm)]
        exact hi
      · rw [hqne _ hpne]
        exact hq
  · rw [handleErr_of_crashed oracle props cpath r kind pr e hcrash]
    exact ⟨hi, hq⟩

/-- If a required property with no default block is still absent when the
required keyword runs, its required error is yielded (and survives to the
end of the traversal). -/
theorem phaseRequired_mem_required (oracle : Nat → Value)
    (props : List (String × PropSchema)) (cpath : SPath) (prop : String)
    (hsub : ((alist.find props prop).getD emptySchema).default = none) :
    ∀ (l : List String) (r : RunState), prop ∈ l →
      (alist.find r.inst prop = none ∧
        (alist.find r.st.questions (cpath ++ [prop]) = none ∨
         alist.find r.st.questions (cpath ++ [prop]) = some none)) →
      (phaseRequired oracle props cpath l r).crashed = none →
      YieldErr.required prop ∈ (phaseRequired oracle props cpath l r).yielded := by
  intro l
  induction l with
  | nil => intro r hmem; cases hmem
  | cons pr t ih =>
    intro r hmem hK hcr
    rcases hc : r.crashed with _ | e
    · by_cases hpr : pr = prop
      · subst hpr
        have hstep : phaseRequired oracle props cpath (pr :: t) r =
            phaseRequired oracle props cpath t
              (handleErr oracle props cpath r ErrKind.requiredE pr) := by
          simp only [phaseRequired]
          rw [if_pos ⟨by simp [hc], by simp [hK.1]⟩]
        rw [hstep]
        refine phaseRequired_preserve oracle props cpath
          (fun r' => YieldErr.required pr ∈ r'.yielded)
          (fun r' k p' hmem' => handleErr_yield_mem oracle props cpath r' k p' _ hmem') t _ ?_
        rw [handleErr_required_nodefault oracle props cpath r pr hc hsub]
        simp
      · have hmem' : prop ∈ t := by
          rcases List.mem_cons.mp hmem with h | h
          · exact absurd h.symm hpr
          · exact h
        have hstep : phaseRequired oracle props cpath (pr :: t) r =
            phaseRequired oracle props cpath t
              (if r.crashed.isNone ∧ (alist.find r.inst pr).isNone then
                handleErr oracle props cpath r ErrKind.requiredE pr else r) := by
          simp only [phaseRequired]
        rw [hstep] at hcr ⊢
        by_cases hcond : r.crashed.isNone = true ∧ (alist.find r.inst pr).isNone = true
        · rw [if_pos hcond] at hcr ⊢
          exact ih _ hmem' (invC2a_preserved oracle props cpath prop hsub r _ pr hK) hcr
        · rw [if_neg hcond] at hcr ⊢
          exact ih _ hmem' hK hcr
    · exfalso
      have hfinal : (phaseRequired oracle props cpath (pr :: t) r).crashed = some e :=
        phaseRequired_preserve oracle props cpath (fun r' => r'.crashed = some e)
          (runIterErrors_crash_monotone oracle props cpath e) (pr :: t) r hc
      rw [hcr] at hfinal
      cases hfinal

/-- No step of the loop yields a required error for a property whose schema
has a default block: resolution always writes something (line 262), so the
line 223 re-check never fires for it. -/
theorem handleErr_no_required_yield (oracle : Nat → Value)
    (props : List (String × PropSchema)) (cpath : SPath) (prop : String)
    (sub : PropSchema) (d : DefaultSpec)
    (hlook : alist.find props prop = some sub)
    (hblock : sub.default = some (PyDefault.block d))
    (r : RunState) (kind : ErrKind) (pr : String)
    (hy : YieldErr.required prop ∉ r.yielded) :
    YieldErr.required prop ∉ (handleErr oracle props cpath r kind pr).yielded := by
  by_cases hpr : pr = prop
  · subst hpr
    rcases hcrash : r.crashed with _ | e
    · unfold handleErr
      rw [hcrash]
      cases kind with
      | requiredE =>
        simp only [hlook, Option.getD_some, hblock]
        simp only [afterResolve]
        split
        · exact hy
        · rename_i heq
          split
          · rename_i hnone
            exfalso
            have hw := resolveDefault_block_writes oracle props cpath r.st r.inst
              ErrKind.requiredE pr sub d _ _ _ hblock heq
            rw [hnone] at hw
            cases hw
          · intro hcontra
            rcases List.mem_append.mp hcontra with hcontra | hcontra
            · exact hy hcontra
            · obtain ⟨x, _, hx⟩ := List.mem_map.mp hcontra
              cases hx
      | defaultH =>
        simp only [hlook, Option.getD_some]
        simp only [afterResolve]
        split
        · exact hy
        · split
          · simp only [Bool.false_eq_true, if_false]
            exact hy
          · intro hcontra
            rcases List.mem_append.mp hcontra with hcontra | hcontra
            · exact hy hcontra
            · obtain ⟨x, _, hx⟩ := List.mem_map.mp hcontra
              cases hx
      | propertyE =>
        simp only [hlook, Option.getD_some]
        simp only [afterResolve]
        split
        · exact hy
        · split
          · simp only [Bool.false_eq_true, if_false]
            exact hy
          · intro hcontra
            rcases List.mem_append.mp hcontra with hcontra | hcontra
            · exact hy hcontra
            · obtain ⟨x, _, hx⟩ := List.mem_map.mp hcontra
              cases hx
    · rw [handleErr_of_crashed oracle props cpath r kind pr e hcrash]
      exact hy
  · obtain ⟨_, _, _, _, _, ⟨t, ht, hev⟩⟩ := handleErr_frame oracle props cpath r kind pr
    rw [ht]
    intro hcontra
    rcases List.mem_append.mp hcontra with hcontra | hcontra
    · exact hy hcontra
    · have := hev _ hcontra
      simp only [yieldProp] at this
      exact hpr this.symm

/-- The C2 default-block invariant: once present, the property stays
present and no required error for it is ever yielded. -/
theorem invC2b_preserved (oracle : Nat → Value) (props : List (String × PropSchema))
    (cpath : SPath) (prop : String) (sub : PropSchema) (d : DefaultSpec)
    (hlook : alist.find props prop = some sub)
    (hblock : sub.default = some (PyDefault.block d))
    (r : RunState) (kind : ErrKind) (pr : String)
    (h : (alist.find r.inst prop).isSome ∧ YieldErr.required prop ∉ r.yielded) :
    (alist.find (handleErr oracle props cpath r kind pr).inst prop).isSome ∧
    YieldErr.required prop ∉ (handleErr oracle props cpath r kind pr).yielded := by
  obtain ⟨hi, hy⟩ := h
  obtain ⟨hf, hpres, _, _, _, _⟩ := handleErr_frame oracle props cpath r kind pr
  refine ⟨?_, handleErr_no_required_yield oracle props cpath prop sub d hlook hblock
    r kind pr hy⟩
  by_cases hpr : pr = prop
  · subst hpr
    exact hpres hi
  · rw [hf prop (fun hcontra => hpr hcontra.symm)]
    exact hi

/-- Handling the default signal of a property with a default block either
crashes or leaves the property present. -/
theorem handleErr_defaultH_writes (oracle : Nat → Value)
    (props : List (String × PropSchema)) (cpath : SPath) (r : RunState) (prop : String)
    (sub : PropSchema) (d : DefaultSpec)
    (hcr : r.crashed = none)
    (hlook : alist.find props prop = some sub)
    (hblock : sub.default = some (PyDefault.block d)) :
    (handleErr oracle props cpath r ErrKind.defaultH prop).crashed.isSome ∨
      (alist.find (handleErr oracle props cpath r ErrKind.defaultH prop).inst prop).isSome := by
  unfold handleErr
  rw [hcr]
  simp only [hlook, Option.getD_some]
  simp only [afterResolve]
  split
  · left
    simp
  · rename_i heq
    have hw := resolveDefault_block_writes oracle props cpath r.st r.inst
      ErrKind.defaultH prop sub d _ _ _ hblock heq
    right
    split
    · rename_i hnone
      rw [hnone] at hw
      cases hw
    · rename_i v hv
      simp [hv]

/-- C2: a required property absent from the document raises the required
error unrecovered when its schema has no default, and is instead filled
(with no required error yielded) when its schema declares a default
block. -/
theorem c2_required_missing (oracle : Nat → Value) (props : List (String × PropSchema))
    (requiredL : List String) (cpath : SPath) (answers0 : AnswerCache) (inst0 : Dict)
    (prop : String)
    (hmiss : alist.find inst0 prop = none)
    (hreq : prop ∈ requiredL)
    (hok : (freshRun oracle props requiredL cpath answers0 inst0).crashed = none) :
    (((alist.find props prop).getD emptySchema).default = none →
      YieldErr.required prop ∈
        (freshRun oracle props requiredL cpath answers0 inst0).yielded) ∧
    (∀ sub d, alist.find props prop = some sub →
      sub.default = some (PyDefault.block d) →
      YieldErr.required prop ∉
          (freshRun oracle props requiredL cpath answers0 inst0).yielded ∧
      (alist.find (freshRun oracle props requiredL cpath answers0 inst0).inst prop).isSome) := by
  have hrun : freshRun oracle props requiredL cpath answers0 inst0 =
      phaseRequired oracle props cpath requiredL
        (phaseProperties oracle props cpath props
          (phaseDefaults oracle props cpath props
            ⟨inst0, ⟨[], answers0, [], [], []⟩, [], none⟩)) := rfl
  constructor
  · intro hsub
    have hK := phaseProperties_preserve oracle props cpath
      (fun r => alist.find r.inst prop = none ∧
        (alist.find r.st.questions (cpath ++ [prop]) = none ∨
         alist.find r.st.questions (cpath ++ [prop]) = some none))
      (fun r k pr => invC2a_preserved oracle props cpath prop hsub r k pr) props _
      (phaseDefaults_preserve oracle props cpath _
        (fun r k pr => invC2a_preserved oracle props cpath prop hsub r k pr) props
        ⟨inst0, ⟨[], answers0, [], [], []⟩, [], none⟩ ⟨hmiss, Or.inl rfl⟩)
    rw [hrun]
    rw [hrun] at hok
    exact phaseRequired_mem_required oracle props cpath prop hsub requiredL _ hreq hK hok
  · intro sub d hlook hblock
    obtain ⟨l₁, l₂, hsplit, hne⟩ := alist.find_eq_some_split props prop sub hlook
    have hPD := phaseDefaults_append oracle props cpath l₁ ((prop, sub) :: l₂)
      ⟨inst0, ⟨[], answers0, [], [], []⟩, [], none⟩
    rw [← hsplit] at hPD
    have hpre : alist.find (phaseDefaults oracle props cpath l₁
          ⟨inst0, ⟨[], answers0, [], [], []⟩, [], none⟩).inst prop = none ∧
        YieldErr.required prop ∉ (phaseDefaults oracle props cpath l₁
          ⟨inst0, ⟨[], answers0, [], [], []⟩, [], none⟩).yielded := by
      refine phaseDefaults_preserve_keys oracle props cpath
        (fun r => alist.find r.inst prop = none ∧ YieldErr.required prop ∉ r.yielded)
        l₁ ?_ _ ⟨hmiss, by simp⟩
      intro r kind pr hm hr
      have hpr : pr ≠ prop := by
        intro hcontra
        subst hcontra
        obtain ⟨e, hmem2, heq2⟩ := List.mem_map.mp hm
        exact hne e hmem2 heq2
      obtain ⟨hf, _, _, _, _, _⟩ := handleErr_frame oracle props cpath r kind pr
      exact ⟨by rw [hf prop (fun hcontra => hpr hcontra.symm)]; exact hr.1,
        handleErr_no_required_yield oracle props cpath prop sub d hlook hblock r kind pr hr.2⟩
    set rA := phaseDefaults oracle props cpath l₁
      ⟨inst0, ⟨[], answers0, [], [], []⟩, [], none⟩ with hrA
    rcases hcrA : rA.crashed with _ | e
    · have hstep : phaseDefaults oracle props cpath ((prop, sub) :: l₂) rA =
          phaseDefaults oracle props cpath l₂
            (handleErr oracle props cpath rA ErrKind.defaultH prop) := by
        simp only [phaseDefaults]
        rw [if_pos]
        exact ⟨by simp [hcrA], by simp [hpre.1], by simp [hblock]⟩
      rcases handleErr_defaultH_writes oracle props cpath rA prop sub d hcrA hlook hblock
        with hcrash | hwrote
      · -- the establishing step itself crashed: contradicts the crash-free run
        exfalso
        obtain ⟨e, he⟩ := Option.isSome_iff_exists.mp hcrash
        have hcfinal : (phaseRequired oracle props cpath requiredL
            (phaseProperties oracle props cpath props
              (phaseDefaults oracle props cpath l₂
                (handleErr oracle props cpath rA ErrKind.defaultH prop)))).crashed = some e :=
          phaseRequired_preserve oracle props cpath (fun r' => r'.crashed = some e)
            (runIterErrors_crash_monotone oracle props cpath e) requiredL _
            (phaseProperties_preserve oracle props cpath (fun r' => r'.crashed = some e)
              (runIterErrors_crash_monotone oracle props cpath e) props _
              (phaseDefaults_preserve oracle props cpath (fun r' => r'.crashed = some e)
                (runIterErrors_crash_monotone oracle props cpath e) l₂ _ he))
        rw [hrun, hPD, hstep] at hok
        rw [hcfinal] at hok
        cases hok
      · have hM : (alist.find (handleErr oracle props cpath rA ErrKind.defaultH prop).inst
              prop).isSome ∧
            YieldErr.required prop ∉
              (handleErr oracle props cpath rA ErrKind.defaultH prop).yielded :=
          ⟨hwrote, handleErr_no_required_yield oracle props cpath prop sub d hlook hblock
            rA ErrKind.defaultH prop hpre.2⟩
        have hfinal := phaseRequired_preserve oracle props cpath
          (fun r => (alist.find r.inst prop).isSome ∧ YieldErr.required prop ∉ r.yielded)
          (fun r k pr => invC2b_preserved oracle props cpath prop sub d hlook hblock r k pr)
          requiredL _
          (phaseProperties_preserve oracle props cpath _
            (fun r k pr => invC2b_preserved oracle props cpath prop sub d hlook hblock r k pr)
            props _
            (phaseDefaults_preserve oracle props cpath _
              (fun r k pr => invC2b_preserved oracle props cpath prop sub d hlook hblock r k pr)
              l₂ _ hM))
        rw [hrun, hPD, hstep]
        exact ⟨hfinal.2, hfinal.1⟩
    · exfalso
      have hstep : phaseDefaults oracle props cpath ((prop, sub) :: l₂) rA =
          phaseDefaults oracle props cpath l₂ rA := by
        simp only [phaseDefaults]
        rw [if_neg]
        simp [hcrA]
      have hcfinal : (phaseRequired oracle props cpath requiredL
          (phaseProperties oracle props cpath props
            (phaseDefaults oracle props cpath l₂ rA))).crashed = some e :=
        phaseRequired_preserve oracle props cpath (fun r' => r'.crashed = some e)
          (runIterErrors_crash_monotone oracle props cpath e) requiredL _
          (phaseProperties_preserve oracle props cpath (fun r' => r'.crashed = some e)
            (runIterErrors_crash_monotone oracle props cpath e) props _
            (phaseDefaults_preserve oracle props cpath (fun r' => r'.crashed = some e)
              (runIterErrors_crash_monotone oracle props cpath e) l₂ _ hcrA))
      rw [hrun, hPD, hstep] at hok
      rw [hcfinal] at hok
      cases hok

/-! ### C5: null answers -/

/-- An inner (per-identity) answer map with no recorded answers. -/
def midEmpty (m : List (Value × List (String × Value))) : Prop :=
  ∀ kv yet, alist.find m kv = some yet → yet = []

/-- An answer cache with no recorded answers at all. -/
def leafEmptyCache (c : AnswerCache) : Prop :=
  ∀ kp m, alist.find c kp = some m → midEmpty m

theorem midEmpty_nil : midEmpty [] := by
  intro kv yet h
  cases h

theorem midEmpty_set_nil (m : List (Value × List (String × Value))) (kv : Value)
    (h : midEmpty m) : midEmpty (alist.set m kv []) := by
  intro kv' yet h'
  by_cases hk : kv' = kv
  · subst hk
    rw [alist.find_set_self] at h'
    cases h'
    rfl
  · rw [alist.find_set_ne _ _ _ _ hk] at h'
    exact h kv' yet h'

theorem leafEmpty_set (c : AnswerCache) (kp : SPath)
    (m : List (Value × List (String × Value)))
    (hc : leafEmptyCache c) (hm : midEmpty m) : leafEmptyCache (alist.set c kp m) := by
  intro kp' m' h'
  by_cases hk : kp' = kp
  · subst hk
    rw [alist.find_set_self] at h'
    cases h'
    exact hm
  · rw [alist.find_set_ne _ _ _ _ hk] at h'
    exact hc kp' m' h'

theorem leafEmpty_getD_mid (c : AnswerCache) (kp : SPath) (h : leafEmptyCache c) :
    midEmpty ((alist.find c kp).getD []) := by
  rcases hf : alist.find c kp with _ | m
  · exact midEmpty_nil
  · exact h kp m hf

/-- `_ask` driven by a response source that always answers `None`: either
it raises, or it returns `None` and records nothing. -/
theorem askStep_constNull (props : List (String × PropSchema)) (inst : Dict)
    (st : OrchState) (path : SPath) (prop : String)
    (h : leafEmptyCache st.answers) :
    (∃ e, askStep (fun _ => Value.vNull) props inst st path prop = Except.error e) ∨
    (∃ st', askStep (fun _ => Value.vNull) props inst st path prop =
        Except.ok (Value.vNull, st') ∧ leafEmptyCache st'.answers) := by
  have hmid : midEmpty ((alist.find st.answers path.dropLast).getD []) :=
    leafEmpty_getD_mid _ _ h
  have hbase : leafEmptyCache
      (match alist.find st.answers path.dropLast with
        | some _ => st.answers
        | none => alist.set st.answers path.dropLast []) := by
    rcases hf : alist.find st.answers path.dropLast with _ | m
    · exact leafEmpty_set _ _ _ h midEmpty_nil
    · exact h
  have hyetAll : ∀ kv : Value,
      ((alist.find ((alist.find st.answers path.dropLast).getD []) kv).getD []) =
        ([] : List (String × Value)) := by
    intro kv
    rcases hres : alist.find ((alist.find st.answers path.dropLast).getD []) kv with _ | yet
    · rfl
    · rw [Option.getD_some]
      exact hmid kv yet hres
  have hnone : ∀ kv : Value,
      alist.find ((alist.find ((alist.find st.answers path.dropLast).getD []) kv).getD [])
        prop = none := by
    intro kv
    rw [hyetAll kv]
    rfl
  simp only [askStep]
  split
  · exact Or.inl ⟨PyExc.keyError, rfl⟩
  · split
    · exact Or.inl ⟨PyExc.keyError, rfl⟩
    · split
      · exact Or.inr ⟨_, rfl, hbase⟩
      · split
        · rename_i a heq
          rw [hnone] at heq
          cases heq
        · refine Or.inr ⟨_, rfl, ?_⟩
          refine leafEmpty_set _ _ _ hbase ?_
          rw [if_pos trivial]
          rw [hyetAll]
          exact midEmpty_set_nil _ _ hmid

/-- Resolution through a cached entry that holds a question, with a
response source that always answers `None`: either it raises, or it writes
Python `None` (JSON null) at the property and records nothing. -/
theorem resolveDefault_cachedQ_constNull (props : List (String × PropSchema))
    (cpath : SPath) (st : OrchState) (inst : Dict) (kind : ErrKind) (prop : String)
    (psub : PropSchema) (q0 : Question) (dv0 : Value)
    (hq : alist.find st.questions (cpath ++ [prop]) = some (some (some q0, dv0)))
    (hle : leafEmptyCache st.answers) :
    (∃ e, resolveDefault (fun _ => Value.vNull) props cpath st inst kind prop psub =
      Except.error e) ∨
    (∃ st', resolveDefault (fun _ => Value.vNull) props cpath st inst kind prop psub =
        Except.ok (true, alist.set inst prop Value.vNull, st') ∧
      leafEmptyCache st'.answers ∧ st'.questions = st.questions) := by
  rcases askStep_constNull props inst st (cpath ++ [prop]) prop hle with ⟨e, he⟩ | ⟨stl, hl, hlee⟩
  · left
    refine ⟨e, ?_⟩
    simp [resolveDefault, resolveWrite, hq, he]
  · right
    refine ⟨stl, ?_, hlee, ?_⟩
    · simp [resolveDefault, resolveWrite, hq, hl]
    · exact (askStep_ok_frame _ _ _ _ _ _ _ _ hl).1

/-- A successful `_ask` under the always-`None` response source returns
`None` and keeps the cache free of recorded answers. -/
theorem askStep_constNull_ok (props : List (String × PropSchema)) (inst : Dict)
    (st : OrchState) (path : SPath) (prop : String) (ans : Value) (st' : OrchState)
    (h : askStep (fun _ => Value.vNull) props inst st path prop = Except.ok (ans, st'))
    (hle : leafEmptyCache st.answers) :
    ans = Value.vNull ∧ leafEmptyCache st'.answers := by
  rcases askStep_constNull props inst st path prop hle with ⟨e, he⟩ | ⟨stl, hl, hlee⟩
  · rw [he] at h
    cases h
  · rw [hl] at h
    cases h
    exact ⟨rfl, hlee⟩

/-- First resolution of a property whose default block declares a question,
with a response source that always answers `None`: either it raises, or it
caches the freshly built question, writes null, and records nothing. -/
theorem resolveDefault_newQ_constNull (props : List (String × PropSchema))
    (cpath : SPath) (st : OrchState) (inst : Dict) (kind : ErrKind) (prop : String)
    (psub : PropSchema) (d : DefaultSpec) (qs : String)
    (hq : alist.find st.questions (cpath ++ [prop]) = none)
    (hblock : psub.default = some (PyDefault.block d))
    (hqs : d.question = some qs)
    (hle : leafEmptyCache st.answers) :
    (∃ e, resolveDefault (fun _ => Value.vNull) props cpath st inst kind prop psub =
      Except.error e) ∨
    (∃ st', resolveDefault (fun _ => Value.vNull) props cpath st inst kind prop psub =
        Except.ok (true, alist.set inst prop Value.vNull, st') ∧
      leafEmptyCache st'.answers ∧
      ∃ q0, alist.find st'.questions (cpath ++ [prop]) = some (some (some q0, d.value))) := by
  simp only [resolveDefault, hq, hblock, hqs, resolveWrite]
  split
  · rename_i e he
    exact Or.inl ⟨e, rfl⟩
  · rename_i ans stl he
    obtain ⟨hans, hlee⟩ := askStep_constNull_ok _ _ _ _ _ _ _ he hle
    subst hans
    refine Or.inr ⟨stl, rfl, hlee, ?_⟩
    rw [(askStep_ok_frame _ _ _ _ _ _ _ _ he).1]
    exact ⟨Question.make d psub.type psub.enum (kind = ErrKind.requiredE)
      (kind ≠ ErrKind.defaultH), by simp [alist.find_set_self]⟩

theorem resolveWrite_constNull_leafEmpty (props : List (String × PropSchema))
    (st : OrchState) (inst : Dict) (path : SPath) (prop : String)
    (qd : Option Question × Value) (b : Bool) (inst' : Dict) (st' : OrchState)
    (h : resolveWrite (fun _ => Value.vNull) props st inst path prop qd =
      Except.ok (b, inst', st'))
    (hle : leafEmptyCache st.answers) : leafEmptyCache st'.answers := by
  simp only [resolveWrite] at h
  split at h
  · split at h
    · exact absurd h (by simp)
    · rename_i ans st'' heq
      cases h
      exact (askStep_constNull_ok _ _ _ _ _ _ _ heq hle).2
  · cases h
    exact hle

theorem resolveDefault_constNull_leafEmpty (props : List (String × PropSchema))
    (cpath : SPath) (st : OrchState) (inst : Dict) (kind : ErrKind) (prop : String)
    (psub : PropSchema) (b : Bool) (inst' : Dict) (st' : OrchState)
    (h : resolveDefault (fun _ => Value.vNull) props cpath st inst kind prop psub =
      Except.ok (b, inst', st'))
    (hle : leafEmptyCache st.answers) : leafEmptyCache st'.answers := by
  simp only [resolveDefault] at h
  split at h
  · exact absurd h (by simp)
  · exact resolveWrite_constNull_leafEmpty _ _ _ _ _ _ _ _ _ h hle
  · split at h
    · exact resolveWrite_constNull_leafEmpty _ _ _ _ _ _ _ _ _ h hle
    · cases h
      exact hle

theorem afterResolve_constNull_leafEmpty (r : RunState) (prop : String)
    (psub : PropSchema) (isReq : Bool) (res : Except PyExc (Bool × Dict × OrchState))
    (hle : leafEmptyCache r.st.answers)
    (hres : ∀ b inst' st', res = Except.ok (b, inst', st') → leafEmptyCache st'.answers) :
    leafEmptyCache (afterResolve r prop psub isReq res).st.answers := by
  unfold afterResolve
  split
  · exact hle
  · rename_i b inst' st'
    have hst' := hres b inst' st' rfl
    split
    · split
      · exact hst'
      · exact hst'
    · exact hst'

/-- Under the always-`None` response source, no loop step ever records an
answer. -/
theorem handleErr_constNull_leafEmpty (props : List (String × PropSchema))
    (cpath : SPath) (r : RunState) (kind : ErrKind) (pr : String)
    (hle : leafEmptyCache r.st.answers) :
    leafEmptyCache (handleErr (fun _ => Value.vNull) props cpath r kind pr).st.answers := by
  unfold handleErr
  split
  · exact hle
  · split
    · split
      · exact hle
      · exact afterResolve_constNull_leafEmpty r pr _ true _ hle
          (fun b inst' st' hok =>
            resolveDefault_constNull_leafEmpty _ _ _ _ _ _ _ _ _ _ hok hle)
    · exact afterResolve_constNull_leafEmpty r pr _ false _ hle
        (fun b inst' st' hok =>
          resolveDefault_constNull_leafEmpty _ _ _ _ _ _ _ _ _ _ hok hle)

/-- The C5 invariant: once null has been written for the property (cached
question present, no recorded answers, no required error yielded), every
later step preserves all of it. -/
theorem invC5_preserved (props : List (String × PropSchema)) (cpath : SPath)
    (prop : String) (sub : PropSchema) (d : DefaultSpec)
    (hlook : alist.find props prop = some sub)
    (hblock : sub.default = some (PyDefault.block d))
    (r : RunState) (kind : ErrKind) (pr : String)
    (h : alist.find r.inst prop = some Value.vNull ∧
      (∃ q0 dv0, alist.find r.st.questions (cpath ++ [prop]) = some (some (some q0, dv0))) ∧
      leafEmptyCache r.st.answers ∧
      YieldErr.required prop ∉ r.yielded) :
    alist.find (handleErr (fun _ => Value.vNull) props cpath r kind pr).inst prop =
      some Value.vNull ∧
    (∃ q0 dv0, alist.find (handleErr (fun _ => Value.vNull) props cpath r kind pr).st.questions
      (cpath ++ [prop]) = some (some (some q0, dv0))) ∧
    leafEmptyCache (handleErr (fun _ => Value.vNull) props cpath r kind pr).st.answers ∧
    YieldErr.required prop ∉ (handleErr (fun _ => Value.vNull) props cpath r kind pr).yielded := by
  obtain ⟨hi, ⟨q0, dv0, hq⟩, hle, hy⟩ := h
  have hyield := handleErr_no_required_yield (fun _ => Value.vNull) props cpath prop sub d
    hlook hblock r kind pr hy
  have hleaf := handleErr_constNull_leafEmpty props cpath r kind pr hle
  rcases hcrash : r.crashed with _ | e
  · by_cases hpr : pr = prop
    · subst hpr
      rcases resolveDefault_cachedQ_constNull props cpath r.st r.inst kind pr sub q0 dv0 hq hle
        with ⟨e, he⟩ | ⟨st', hok, hlee, hqeq⟩
      · have heq : handleErr (fun _ => Value.vNull) props cpath r kind pr =
            { r with crashed := some e } := by
          unfold handleErr
          rw [hcrash]
          cases kind with
          | requiredE => simp [hlook, hblock, afterResolve, he]
          | defaultH => simp [hlook, afterResolve, he]
          | propertyE => simp [hlook, afterResolve, he]
        rw [heq] at hyield hleaf ⊢
        exact ⟨hi, ⟨q0, dv0, hq⟩, hleaf, hyield⟩
      · have heq : handleErr (fun _ => Value.vNull) props cpath r kind pr =
            { r with
              inst := alist.set r.inst pr Value.vNull
              st := st'
              yielded := r.yielded ++
                (baseIterErrors sub Value.vNull).map (YieldErr.base pr) } := by
          unfold handleErr
          rw [hcrash]
          cases kind with
          | requiredE => simp [hlook, hblock, afterResolve, hok, alist.find_set_self, hcrash]
          | defaultH => simp [hlook, afterResolve, hok, alist.find_set_self, hcrash]
          | propertyE => simp [hlook, afterResolve, hok, alist.find_set_self, hcrash]
        rw [heq] at hyield hleaf ⊢
        refine ⟨by simp [alist.find_set_self], ⟨q0, dv0, ?_⟩, hleaf, hyield⟩
        rw [hqeq]
        exact hq
    · obtain ⟨hf, _, hqne, _, _, _⟩ :=
        handleErr_frame (fun _ => Value.vNull) props cpath r kind pr
      have hpne : cpath ++ [prop] ≠ cpath ++ [pr] := by
        intro hcontra
        exact hpr (spath_inj cpath prop pr hcontra).symm
      refine ⟨?_, ⟨q0, dv0, ?_⟩, hleaf, hyield⟩
      · rw [hf prop (fun hcontra => hpr hcontra.symm)]
        exact hi
      · rw [hqne _ hpne]
        exact hq
  · rw [handleErr_of_crashed (fun _ => Value.vNull) props cpath r kind pr e hcrash]
      at hyield hleaf ⊢
    exact ⟨hi, ⟨q0, dv0, hq⟩, hleaf, hyield⟩

theorem leafEmpty_nil : leafEmptyCache [] := by
  intro kp m h
  cases h

/-- First handling of a missing question-property under the always-`None`
source: either it crashes, or null is written and the C5 invariant is
established. -/
theorem handleErr_establishC5 (props : List (String × PropSchema)) (cpath : SPath)
    (r : RunState) (prop : String) (sub : PropSchema) (d : DefaultSpec) (qs : String)
    (hcr : r.crashed = none)
    (hlook : alist.find props prop = some sub)
    (hblock : sub.default = some (PyDefault.block d))
    (hqs : d.question = some qs)
    (hq : alist.find r.st.questions (cpath ++ [prop]) = none)
    (hle : leafEmptyCache r.st.answers)
    (hy : YieldErr.required prop ∉ r.yielded) :
    (handleErr (fun _ => Value.vNull) props cpath r ErrKind.defaultH prop).crashed.isSome ∨
      (alist.find (handleErr (fun _ => Value.vNull) props cpath r
          ErrKind.defaultH prop).inst prop = some Value.vNull ∧
       (∃ q0 dv0, alist.find (handleErr (fun _ => Value.vNull) props cpath r
          ErrKind.defaultH prop).st.questions (cpath ++ [prop]) = some (some (some q0, dv0))) ∧
       leafEmptyCache (handleErr (fun _ => Value.vNull) props cpath r
          ErrKind.defaultH prop).st.answers ∧
       YieldErr.required prop ∉ (handleErr (fun _ => Value.vNull) props cpath r
          ErrKind.defaultH prop).yielded) := by
  rcases resolveDefault_newQ_constNull props cpath r.st r.inst ErrKind.defaultH prop sub d qs
      hq hblock hqs hle with ⟨e, he⟩ | ⟨st', hok2, hlee, q0, hqeq⟩
  · left
    have heq : handleErr (fun _ => Value.vNull) props cpath r ErrKind.defaultH prop =
        { r with crashed := some e } := by
      unfold handleErr
      rw [hcr]
      simp [hlook, afterResolve, he]
    rw [heq]
    rfl
  · right
    have heq : handleErr (fun _ => Value.vNull) props cpath r ErrKind.defaultH prop =
        { r with
          inst := alist.set r.inst prop Value.vNull
          st := st'
          yielded := r.yielded ++
            (baseIterErrors sub Value.vNull).map (YieldErr.base prop) } := by
      unfold handleErr
      rw [hcr]
      simp [hlook, afterResolve, hok2, alist.find_set_self, hcr]
    rw [heq]
    refine ⟨by simp [alist.find_set_self], ⟨q0, d.value, hqeq⟩, hlee, ?_⟩
    intro hcontra
    rcases List.mem_append.mp hcontra with hcontra | hcontra
    · exact hy hcontra
    · obtain ⟨x, _, hx⟩ := List.mem_map.mp hcontra
      cases hx

/-- C5 (amended): when a missing property's question is answered with null,
line 262 writes that null into the document — the property becomes present
with value null — and consequently the original required error is not
re-yielded (line 223 sees the property as present). -/
theorem c5_null_answer_written_as_null (props : List (String × PropSchema))
    (requiredL : List String) (cpath : SPath) (inst0 : Dict) (prop : String)
    (sub : PropSchema) (d : DefaultSpec) (qs : String)
    (hlook : alist.find props prop = some sub)
    (hblock : sub.default = some (PyDefault.block d))
    (hqs : d.question = some qs)
    (hmiss : alist.find inst0 prop = none)
    (hok : (freshRun (fun _ => Value.vNull) props requiredL cpath [] inst0).crashed = none) :
    alist.find (freshRun (fun _ => Value.vNull) props requiredL cpath [] inst0).inst prop =
      some Value.vNull ∧
    YieldErr.required prop ∉
      (freshRun (fun _ => Value.vNull) props requiredL cpath [] inst0).yielded := by
  have hrun : freshRun (fun _ => Value.vNull) props requiredL cpath [] inst0 =
      phaseRequired (fun _ => Value.vNull) props cpath requiredL
        (phaseProperties (fun _ => Value.vNull) props cpath props
          (phaseDefaults (fun _ => Value.vNull) props cpath props
            ⟨inst0, ⟨[], [], [], [], []⟩, [], none⟩)) := rfl
  obtain ⟨l₁, l₂, hsplit, hne⟩ := alist.find_eq_some_split props prop sub hlook
  have hPD := phaseDefaults_append (fun _ => Value.vNull) props cpath l₁ ((prop, sub) :: l₂)
    ⟨inst0, ⟨[], [], [], [], []⟩, [], none⟩
  rw [← hsplit] at hPD
  have hpre : alist.find (phaseDefaults (fun _ => Value.vNull) props cpath l₁
        ⟨inst0, ⟨[], [], [], [], []⟩, [], none⟩).inst prop = none ∧
      alist.find (phaseDefaults (fun _ => Value.vNull) props cpath l₁
        ⟨inst0, ⟨[], [], [], [], []⟩, [], none⟩).st.questions (cpath ++ [prop]) = none ∧
      leafEmptyCache (phaseDefaults (fun _ => Value.vNull) props cpath l₁
        ⟨inst0, ⟨[], [], [], [], []⟩, [], none⟩).st.answers ∧
      YieldErr.required prop ∉ (phaseDefaults (fun _ => Value.vNull) props cpath l₁
        ⟨inst0, ⟨[], [], [], [], []⟩, [], none⟩).yielded := by
    refine phaseDefaults_preserve_keys (fun _ => Value.vNull) props cpath
      (fun r => alist.find r.inst prop = none ∧
        alist.find r.st.questions (cpath ++ [prop]) = none ∧
        leafEmptyCache r.st.answers ∧
        YieldErr.required prop ∉ r.yielded)
      l₁ ?_ _ ⟨hmiss, rfl, leafEmpty_nil, by simp⟩
    intro r kind pr hm hr
    have hpr : pr ≠ prop := by
      intro hcontra
      subst hcontra
      obtain ⟨e, hmem2, heq2⟩ := List.mem_map.mp hm
      exact hne e hmem2 heq2
    obtain ⟨hf, _, hqne, _, _, _⟩ := handleErr_frame (fun _ => Value.vNull) props cpath r kind pr
    have hpne : cpath ++ [prop] ≠ cpath ++ [pr] := by
      intro hcontra
      exact hpr (spath_inj cpath prop pr hcontra).symm
    exact ⟨by rw [hf prop (fun hcontra => hpr hcontra.symm)]; exact hr.1,
      by rw [hqne _ hpne]; exact hr.2.1,
      handleErr_constNull_leafEmpty props cpath r kind pr hr.2.2.1,
      handleErr_no_required_yield (fun _ => Value.vNull) props cpath prop sub d hlook hblock
        r kind pr hr.2.2.2⟩
  set rA := phaseDefaults (fun _ => Value.vNull) props cpath l₁
    ⟨inst0, ⟨[], [], [], [], []⟩, [], none⟩ with hrA
  rcases hcrA : rA.crashed with _ | e
  · have hstep : phaseDefaults (fun _ => Value.vNull) props cpath ((prop, sub) :: l₂) rA =
        phaseDefaults (fun _ => Value.vNull) props cpath l₂
          (handleErr (fun _ => Value.vNull) props cpath rA ErrKind.defaultH prop) := by
      simp only [phaseDefaults]
      rw [if_pos]
      exact ⟨by simp [hcrA], by simp [hpre.1], by simp [hblock]⟩
    rcases handleErr_establishC5 props cpath rA prop sub d qs hcrA hlook hblock hqs
        hpre.2.1 hpre.2.2.1 hpre.2.2.2 with hcrash | hInv
    · exfalso
      obtain ⟨e, he⟩ := Option.isSome_iff_exists.mp hcrash
      have hcfinal : (phaseRequired (fun _ => Value.vNull) props cpath requiredL
          (phaseProperties (fun _ => Value.vNull) props cpath props
            (phaseDefaults (fun _ => Value.vNull) props cpath l₂
              (handleErr (fun _ => Value.vNull) props cpath rA
                ErrKind.defaultH prop)))).crashed = some e :=
        phaseRequired_preserve (fun _ => Value.vNull) props cpath (fun r' => r'.crashed = some e)
          (runIterErrors_crash_monotone (fun _ => Value.vNull) props cpath e) requiredL _
          (phaseProperties_preserve (fun _ => Value.vNull) props cpath
            (fun r' => r'.crashed = some e)
            (runIterErrors_crash_monotone (fun _ => Value.vNull) props cpath e) props _
            (phaseDefaults_preserve (fun _ => Value.vNull) props cpath
              (fun r' => r'.crashed = some e)
              (runIterErrors_crash_monotone (fun _ => Value.vNull) props cpath e) l₂ _ he))
      rw [hrun, hPD, hstep] at hok
      rw [hcfinal] at hok
      cases hok
    · have hfinal := phaseRequired_preserve (fun _ => Value.vNull) props cpath
        (fun r => alist.find r.inst prop = some Value.vNull ∧
          (∃ q0 dv0, alist.find r.st.questions (cpath ++ [prop]) =
            some (some (some q0, dv0))) ∧
          leafEmptyCache r.st.answers ∧
          YieldErr.required prop ∉ r.yielded)
        (fun r k pr => invC5_preserved props cpath prop sub d hlook hblock r k pr)
        requiredL _
        (phaseProperties_preserve (fun _ => Value.vNull) props cpath _
          (fun r k pr => invC5_preserved props cpath prop sub d hlook hblock r k pr) props _
          (phaseDefaults_preserve (fun _ => Value.vNull) props cpath _
            (fun r k pr => invC5_preserved props cpath prop sub d hlook hblock r k pr) l₂ _
            hInv))
      rw [hrun, hPD, hstep]
      exact ⟨hfinal.1, hfinal.2.2.2⟩
  · exfalso
    have hstep : phaseDefaults (fun _ => Value.vNull) props cpath ((prop, sub) :: l₂) rA =
        phaseDefaults (fun _ => Value.vNull) props cpath l₂ rA := by
      simp only [phaseDefaults]
      rw [if_neg]
      simp [hcrA]
    have hcfinal : (phaseRequired (fun _ => Value.vNull) props cpath requiredL
        (phaseProperties (fun _ => Value.vNull) props cpath props
          (phaseDefaults (fun _ => Value.vNull) props cpath l₂ rA))).crashed = some e :=
      phaseRequired_preserve (fun _ => Value.vNull) props cpath (fun r' => r'.crashed = some e)
        (runIterErrors_crash_monotone (fun _ => Value.vNull) props cpath e) requiredL _
        (phaseProperties_preserve (fun _ => Value.vNull) props cpath
          (fun r' => r'.crashed = some e)
          (runIterErrors_crash_monotone (fun _ => Value.vNull) props cpath e) props _
          (phaseDefaults_preserve (fun _ => Value.vNull) props cpath
            (fun r' => r'.crashed = some e)
            (runIterErrors_crash_monotone (fun _ => Value.vNull) props cpath e) l₂ _ hcrA))
    rw [hrun, hPD, hstep] at hok
    rw [hcfinal] at hok
    cases hok

/-! ### C8: fully populated conformant documents -/

/-- Every schema property is present in the document and passes the base
checks of its subschema. -/
def conformantB (props : List (String × PropSchema)) (inst : Dict) : Bool :=
  props.all (fun e =>
    match alist.find inst e.1 with
    | some v => decide (baseIterErrors e.2 v = [])
    | none => false)

/-- Every required property is present in the document. -/
def requiredPresentB (requiredL : List String) (inst : Dict) : Bool :=
  requiredL.all (fun pr => (alist.find inst pr).isSome)

theorem phaseDefaults_id (oracle : Nat → Value) (props : List (String × PropSchema))
    (cpath : SPath) :
    ∀ (l : List (String × PropSchema)) (r : RunState),
      (∀ e ∈ l, (alist.find r.inst e.1).isSome) →
      phaseDefaults oracle props cpath l r = r := by
  intro l
  induction l with
  | nil => intro r _; rfl
  | cons e t ih =>
    intro r h
    obtain ⟨pr, s⟩ := e
    simp only [phaseDefaults]
    rw [if_neg]
    · exact ih r (fun e' he' => h e' (List.mem_cons_of_mem _ he'))
    · have := h (pr, s) (List.mem_cons_self _ _)
      simp only [Option.isNone_iff_eq_none]
      intro hcontra
      rw [hcontra.2.1] at this
      cases this

theorem phaseProperties_id (oracle : Nat → Value) (props : List (String × PropSchema))
    (cpath : SPath) :
    ∀ (l : List (String × PropSchema)) (r : RunState),
      (∀ e ∈ l, ∃ v, alist.find r.inst e.1 = some v ∧ baseIterErrors e.2 v = []) →
      phaseProperties oracle props cpath l r = r := by
  intro l
  induction l with
  | nil => intro r _; rfl
  | cons e t ih =>
    intro r h
    obtain ⟨pr, s⟩ := e
    obtain ⟨v, hv, hbe⟩ := h (pr, s) (List.mem_cons_self _ _)
    simp only [phaseProperties]
    split
    · exact ih r (fun e' he' => h e' (List.mem_cons_of_mem _ he'))
    · rw [hv]
      have hbe' : baseIterErrors s v = [] := hbe
      show phaseProperties oracle props cpath t
        (phasePropertyErrs oracle props cpath pr (baseIterErrors s v) r) = r
      rw [hbe']
      exact ih r (fun e' he' => h e' (List.mem_cons_of_mem _ he'))

theorem phaseRequired_id (oracle : Nat → Value) (props : List (String × PropSchema))
    (cpath : SPath) :
    ∀ (l : List String) (r : RunState),
      (∀ pr ∈ l, (alist.find r.inst pr).isSome) →
      phaseRequired oracle props cpath l r = r := by
  intro l
  induction l with
  | nil => intro r _; rfl
  | cons pr t ih =>
    intro r h
    simp only [phaseRequired]
    rw [if_neg]
    · exact ih r (fun pr' hpr' => h pr' (List.mem_cons_of_mem _ hpr'))
    · have := h pr (List.mem_cons_self _ _)
      simp only [Option.isNone_iff_eq_none]
      intro hcontra
      rw [hcontra.2] at this
      cases this

/-- C8: on a fully populated, schema-conformant document, `iter_errors`
yields nothing, asks nothing, builds no question, raises nothing, and
leaves the document unchanged. -/
theorem c8_conformant_noop (oracle : Nat → Value) (props : List (String × PropSchema))
    (requiredL : List String) (cpath : SPath) (answers0 : AnswerCache) (inst0 : Dict)
    (hconf : conformantB props inst0 = true)
    (hreq : requiredPresentB requiredL inst0 = true) :
    (freshRun oracle props requiredL cpath answers0 inst0).inst = inst0 ∧
    (freshRun oracle props requiredL cpath answers0 inst0).yielded = [] ∧
    (freshRun oracle props requiredL cpath answers0 inst0).st.askLog = [] ∧
    (freshRun oracle props requiredL cpath answers0 inst0).st.created = [] ∧
    (freshRun oracle props requiredL cpath answers0 inst0).crashed = none := by
  have hconf' : ∀ e ∈ props, ∃ v, alist.find inst0 e.1 = some v ∧ baseIterErrors e.2 v = [] := by
    intro e he
    have := List.all_eq_true.mp hconf e he
    rcases hf : alist.find inst0 e.1 with _ | v
    · rw [hf] at this
      cases this
    · rw [hf] at this
      exact ⟨v, rfl, of_decide_eq_true this⟩
  have hrun : freshRun oracle props requiredL cpath answers0 inst0 =
      phaseRequired oracle props cpath requiredL
        (phaseProperties oracle props cpath props
          (phaseDefaults oracle props cpath props
            ⟨inst0, ⟨[], answers0, [], [], []⟩, [], none⟩)) := rfl
  rw [hrun]
  rw [phaseDefaults_id oracle props cpath props _
    (fun e he => by obtain ⟨v, hv, _⟩ := hconf' e he; simp [hv])]
  rw [phaseProperties_id oracle props cpath props _ hconf']
  rw [phaseRequired_id oracle props cpath requiredL _
    (fun pr hpr => List.all_eq_true.mp hreq pr hpr)]
  exact ⟨rfl, rfl, rfl, rfl, rfl⟩

/-! ### C3 and C10: the per-identity answer cache -/

/-- The answer returned by an `_ask` call (errors pass through). -/
def askValue (x : Except PyExc (Value × OrchState)) : Except PyExc Value :=
  x.map (fun p => p.1)

/-- The ask log after an `_ask` call (empty on error). -/
def askTrace (x : Except PyExc (Value × OrchState)) : List (SPath × Option Value) :=
  match x with
  | Except.ok p => p.2.askLog
  | Except.error _ => []

/-- The orchestrator state after an `_ask` call (the given fallback on
error). -/
def askState (x : Except PyExc (Value × OrchState)) (dflt : OrchState) : OrchState :=
  match x with
  | Except.ok p => p.2
  | Except.error _ => dflt

/-- The answer cache after ensuring `self._answers[key_path]` exists. -/
def baseA (st : OrchState) (kp : SPath) : AnswerCache :=
  match alist.find st.answers kp with
  | some _ => st.answers
  | none => alist.set st.answers kp []

/-- The key cache after ensuring `self._keys[key_path]` exists. -/
def baseK (props : List (String × PropSchema)) (st : OrchState) (kp : SPath) :
    List (SPath × Option String) :=
  match alist.find st.keys kp with
  | some _ => st.keys
  | none => alist.set st.keys kp (getKey props)

theorem lookupAnswer_flatten (c : AnswerCache) (kp : SPath) (kv : Value) (prop : String) :
    lookupAnswer c kp kv prop =
      alist.find ((alist.find ((alist.find c kp).getD []) kv).getD []) prop := by
  unfold lookupAnswer
  rcases h1 : alist.find c kp with _ | m
  · simp [alist.find]
  · rcases h2 : alist.find m kv with _ | yet
    · simp [alist.find, h2]
    · simp [h2]

/-- `_ask` on a cache hit: the recorded answer is returned, the question is
not invoked, nothing is recorded. -/
theorem askStep_hit (oracle : Nat → Value) (props : List (String × PropSchema))
    (inst : Dict) (st : OrchState) (path : SPath) (prop : String) (k : String)
    (kv a : Value)
    (hkey : alist.find st.keys path.dropLast = some (some k) ∨
      (alist.find st.keys path.dropLast = none ∧ getKey props = some k))
    (hkv : alist.find inst k = some kv)
    (hnn : kv ≠ Value.vNull)
    (ha : alist.find ((alist.find ((alist.find st.answers path.dropLast).getD []) kv).getD [])
      prop = some a) :
    askStep oracle props inst st path prop =
      Except.ok (a, { st with answers := baseA st path.dropLast,
                              keys := baseK props st path.dropLast }) := by
  have hkeyeq : (match alist.find st.keys path.dropLast with
      | some k' => k'
      | none => getKey props) = some k := by
    rcases hkey with hk | ⟨hk1, hk2⟩
    · rw [hk]
    · rw [hk1]
      exact hk2
  simp only [askStep, baseA, baseK]
  rw [hkeyeq]
  dsimp only
  rw [hkv]
  dsimp only
  rw [if_neg hnn]
  rw [ha]

/-- `_ask` on a cache miss with a usable identity value: the question is
invoked, its answer is returned, and it is recorded only when non-null. -/
theorem askStep_miss (oracle : Nat → Value) (props : List (String × PropSchema))
    (inst : Dict) (st : OrchState) (path : SPath) (prop : String) (k : String) (kv : Value)
    (hkey : alist.find st.keys path.dropLast = some (some k) ∨
      (alist.find st.keys path.dropLast = none ∧ getKey props = some k))
    (hkv : alist.find inst k = some kv)
    (hnn : kv ≠ Value.vNull)
    (hY : alist.find ((alist.find ((alist.find st.answers path.dropLast).getD []) kv).getD [])
      prop = none) :
    askStep oracle props inst st path prop =
      Except.ok (oracle st.askLog.length,
        { st with
          answers := alist.set (baseA st path.dropLast) path.dropLast
            (alist.set ((alist.find st.answers path.dropLast).getD []) kv
              (if oracle st.askLog.length = Value.vNull then
                (alist.find ((alist.find st.answers path.dropLast).getD []) kv).getD []
               else
                alist.set ((alist.find ((alist.find st.answers path.dropLast).getD []) kv).getD [])
                  prop (oracle st.askLog.length)))
          keys := baseK props st path.dropLast
          askLog := st.askLog ++ [(path, some kv)] }) := by
  have hkeyeq : (match alist.find st.keys path.dropLast with
      | some k' => k'
      | none => getKey props) = some k := by
    rcases hkey with hk | ⟨hk1, hk2⟩
    · rw [hk]
    · rw [hk1]
      exact hk2
  simp only [askStep, baseA, baseK]
  rw [hkeyeq]
  dsimp only
  rw [hkv]
  dsimp only
  rw [if_neg hnn]
  rw [hY]

/-- C3: once a non-null answer is recorded for (container path, identity
value, property), `_ask` returns the cached answer without invoking the
question, while an identity value with no record invokes the question
independently. -/
theorem c3_answer_cache_idempotent (oracle : Nat → Value)
    (props : List (String × PropSchema)) (inst : Dict) (st : OrchState) (path : SPath)
    (prop : String) (k : String) (kv a : Value)
    (hkey : alist.find st.keys path.dropLast = some (some k) ∨
      (alist.find st.keys path.dropLast = none ∧ getKey props = some k))
    (hkv : alist.find inst k = some kv)
    (hnn : kv ≠ Value.vNull)
    (hcached : lookupAnswer st.answers path.dropLast kv prop = some a) :
    (askValue (askStep oracle props inst st path prop) = Except.ok a ∧
     askTrace (askStep oracle props inst st path prop) = st.askLog) ∧
    (∀ inst' kv', alist.find inst' k = some kv' → kv' ≠ Value.vNull →
      lookupAnswer st.answers path.dropLast kv' prop = none →
      askValue (askStep oracle props inst' st path prop) =
        Except.ok (oracle st.askLog.length) ∧
      askTrace (askStep oracle props inst' st path prop) =
        st.askLog ++ [(path, some kv')]) := by
  rw [lookupAnswer_flatten] at hcached
  constructor
  · rw [askStep_hit oracle props inst st path prop k kv a hkey hkv hnn hcached]
    exact ⟨rfl, rfl⟩
  · intro inst' kv' hkv' hnn' hmiss'
    rw [lookupAnswer_flatten] at hmiss'
    rw [askStep_miss oracle props inst' st path prop k kv' hkey hkv' hnn' hmiss']
    exact ⟨rfl, rfl⟩

/-- All recorded answers of one property map are non-null. -/
def propsAllNonNull (yet : List (String × Value)) : Bool :=
  yet.all (fun pv => decide (pv.2 ≠ Value.vNull))

/-- All recorded answers under one container path are non-null. -/
def midAllNonNull (m : List (Value × List (String × Value))) : Bool :=
  m.all (fun kvy => propsAllNonNull kvy.2)

/-- All values stored anywhere in the answer cache are non-null. -/
def leafAllNonNullB (c : AnswerCache) : Bool :=
  c.all (fun kpm => midAllNonNull kpm.2)

theorem alist.find_mem {κ α : Type} [DecidableEq κ] (l : List (κ × α)) (k : κ) (v : α)
    (h : alist.find l k = some v) : (k, v) ∈ l := by
  induction l with
  | nil => cases h
  | cons e t ih =>
    obtain ⟨k', v'⟩ := e
    simp only [alist.find] at h
    split at h
    · rename_i heq
      cases h
      subst heq
      exact List.mem_cons_self _ _
    · exact List.mem_cons_of_mem _ (ih h)

theorem alist.all_set {κ α : Type} [DecidableEq κ] (l : List (κ × α)) (k : κ) (v : α)
    (P : κ × α → Bool) (hl : l.all P = true) (hv : P (k, v) = true) :
    (alist.set l k v).all P = true := by
  rw [List.all_eq_true] at hl ⊢
  intro x hx
  rcases alist.mem_set l k v x hx with h | h
  · exact hl x h
  · rw [h]
    exact hv

theorem leafAll_mid (c : AnswerCache) (kp : SPath) (hc : leafAllNonNullB c = true) :
    midAllNonNull ((alist.find c kp).getD []) = true := by
  rcases hf : alist.find c kp with _ | m
  · rfl
  · exact List.all_eq_true.mp hc (kp, m) (alist.find_mem c kp m hf)

theorem midAll_props (m : List (Value × List (String × Value))) (kv : Value)
    (hm : midAllNonNull m = true) :
    propsAllNonNull ((alist.find m kv).getD []) = true := by
  rcases hf : alist.find m kv with _ | yet
  · rfl
  · exact List.all_eq_true.mp hm (kv, yet) (alist.find_mem m kv yet hf)

theorem baseA_nonNull (st : OrchState) (kp : SPath)
    (hinv : leafAllNonNullB st.answers = true) : leafAllNonNullB (baseA st kp) = true := by
  unfold baseA
  split
  · exact hinv
  · exact alist.all_set _ _ _ _ hinv rfl

/-- The non-null invariant of the answer cache is preserved by every
successful `_ask`: line 291 records the answer only when it is not
`None`. -/
theorem askStep_nonNull_invariant (oracle : Nat → Value)
    (props : List (String × PropSchema)) (inst : Dict) (st : OrchState) (path : SPath)
    (prop : String) (v : Value) (st' : OrchState)
    (h : askStep oracle props inst st path prop = Except.ok (v, st'))
    (hinv : leafAllNonNullB st.answers = true) : leafAllNonNullB st'.answers = true := by
  have hbase := baseA_nonNull st path.dropLast hinv
  have hmid := leafAll_mid st.answers path.dropLast hinv
  simp only [askStep] at h
  split at h
  · exact absurd h (by simp)
  · split at h
    · exact absurd h (by simp)
    · split at h
      · cases h
        exact hbase
      · split at h
        · cases h
          exact hbase
        · rename_i kv h1 h2 x heq
          cases h
          refine alist.all_set _ _ _ _ hbase ?_
          refine alist.all_set _ _ _ _ hmid ?_
          have hprops := midAll_props _ kv hmid
          split
          · exact hprops
          · rename_i hne
            refine alist.all_set _ _ _ _ hprops ?_
            simpa using hne

/-- C10: every value stored in the answer cache is non-null — `_ask`
preserves the all-non-null invariant — and a null answer is returned
without being recorded, so a later `_ask` for the same identity value and
property invokes the question again instead of replaying the null. -/
theorem c10_null_never_cached (oracle : Nat → Value)
    (props : List (String × PropSchema)) (inst : Dict) (st : OrchState) (path : SPath)
    (prop : String) (k : String) (kv : Value)
    (hkey : alist.find st.keys path.dropLast = some (some k) ∨
      (alist.find st.keys path.dropLast = none ∧ getKey props = some k))
    (hkv : alist.find inst k = some kv)
    (hnn : kv ≠ Value.vNull)
    (hmiss : lookupAnswer st.answers path.dropLast kv prop = none)
    (hnull : oracle st.askLog.length = Value.vNull)
    (hinv : leafAllNonNullB st.answers = true) :
    (∀ (oracle2 : Nat → Value) (props2 : List (String × PropSchema)) (inst2 : Dict)
      (st2 : OrchState) (path2 : SPath) (prop2 : String) (v : Value) (st2' : OrchState),
      askStep oracle2 props2 inst2 st2 path2 prop2 = Except.ok (v, st2') →
      leafAllNonNullB st2.answers = true → leafAllNonNullB st2'.answers = true) ∧
    askValue (askStep oracle props inst st path prop) = Except.ok Value.vNull ∧
    lookupAnswer (askState (askStep oracle props inst st path prop) st).answers
      path.dropLast kv prop = none ∧
    leafAllNonNullB (askState (askStep oracle props inst st path prop) st).answers = true ∧
    askValue (askStep oracle props inst
        (askState (askStep oracle props inst st path prop) st) path prop) =
      Except.ok (oracle (st.askLog.length + 1)) ∧
    askTrace (askStep oracle props inst
        (askState (askStep oracle props inst st path prop) st) path prop) =
      st.askLog ++ [(path, some kv), (path, some kv)] := by
  rw [lookupAnswer_flatten] at hmiss
  have heq1 := askStep_miss oracle props inst st path prop k kv hkey hkv hnn hmiss
  rw [hnull, if_pos rfl] at heq1
  set ST2 : OrchState := { st with
      answers := alist.set (baseA st path.dropLast) path.dropLast
        (alist.set ((alist.find st.answers path.dropLast).getD []) kv
          ((alist.find ((alist.find st.answers path.dropLast).getD []) kv).getD []))
      keys := baseK props st path.dropLast
      askLog := st.askLog ++ [(path, some kv)] } with hST2
  have hkey2 : alist.find (baseK props st path.dropLast) path.dropLast = some (some k) := by
    unfold baseK
    rcases hkey with hk | ⟨hk1, hk2⟩
    · rw [hk]
      exact hk
    · rw [hk1]
      dsimp only
      rw [alist.find_set_self, hk2]
  have hY2 : alist.find ((alist.find ((alist.find
      (alist.set (baseA st path.dropLast) path.dropLast
        (alist.set ((alist.find st.answers path.dropLast).getD []) kv
          ((alist.find ((alist.find st.answers path.dropLast).getD []) kv).getD [])))
      path.dropLast).getD []) kv).getD []) prop = none := by
    rw [alist.find_set_self]
    rw [Option.getD_some]
    rw [alist.find_set_self]
    rw [Option.getD_some]
    exact hmiss
  have hkey2' : alist.find ST2.keys path.dropLast = some (some k) := hkey2
  have hY2' : alist.find ((alist.find ((alist.find ST2.answers
      path.dropLast).getD []) kv).getD []) prop = none := hY2
  have heq2 := askStep_miss oracle props inst ST2 path prop k kv (Or.inl hkey2') hkv hnn hY2'
  refine ⟨fun o2 p2 i2 s2 pa2 pr2 v s2' h2 hi2 =>
    askStep_nonNull_invariant o2 p2 i2 s2 pa2 pr2 v s2' h2 hi2, ?_, ?_, ?_, ?_, ?_⟩
  · rw [heq1]
    rfl
  · rw [heq1]
    rw [lookupAnswer_flatten]
    simp only [askState]
    exact hY2'
  · rw [heq1]
    simp only [askState]
    exact askStep_nonNull_invariant oracle props inst st path prop _ _ heq1 hinv
  · rw [heq1]
    simp only [askState]
    rw [heq2]
    simp [askValue, hST2, Except.map]
  · rw [heq1]
    simp only [askState]
    rw [heq2]
    simp [askTrace, hST2]

/-! ### C9: automated answers -/

theorem consoleAskLoop_plain (q : Question) (inp : Nat → Value) (fuel i : Nat)
    (hq : q.enum = none)
    (hcmd : inp i ≠ CMD_BREAK_ANSWER)
    (hblank : inp i ≠ Value.vStr "") :
    consoleAskLoop q inp (fuel + 1) i = Except.ok (inp i) := by
  unfold consoleAskLoop
  rw [if_neg hcmd, if_neg hblank, hq]

theorem consoleAskLoop_enum_member (q : Question) (inp : Nat → Value) (fuel i : Nat)
    (es : List Value)
    (hq : q.enum = some es)
    (hne : es.isEmpty = false)
    (hcmd : inp i ≠ CMD_BREAK_ANSWER)
    (hblank : inp i ≠ Value.vStr "")
    (hmem : inp i ∈ es) :
    consoleAskLoop q inp (fuel + 1) i = Except.ok (inp i) := by
  unfold consoleAskLoop
  rw [if_neg hcmd, if_neg hblank, hq]
  dsimp only
  rw [hne]
  rw [if_neg (by simp), if_pos hmem]

theorem consoleAskLoop_blank_default (q : Question) (inp : Nat → Value) (fuel i : Nat)
    (hblank : inp i = Value.vStr "")
    (hdef : truthy q.default_value = true) :
    consoleAskLoop q inp (fuel + 1) i = Except.ok q.default_value := by
  unfold consoleAskLoop
  rw [hblank]
  rw [if_neg (by simp [CMD_BREAK_ANSWER]), if_pos rfl, if_pos hdef]

theorem consoleAskLoop_blank_notrequired (q : Question) (inp : Nat → Value) (fuel i : Nat)
    (hblank : inp i = Value.vStr "")
    (hdef : truthy q.default_value = false)
    (hreq : q.required = false) :
    consoleAskLoop q inp (fuel + 1) i = Except.ok (Value.vStr "") := by
  unfold consoleAskLoop
  rw [hblank]
  rw [if_neg (by simp [CMD_BREAK_ANSWER]), if_pos rfl,
    if_neg (by simp [hdef]), if_pos (by simp [hreq])]

theorem consoleAskLoop_blank_required (q : Question) (inp : Nat → Value)
    (hinp : ∀ j, inp j = Value.vStr "")
    (hdef : truthy q.default_value = false)
    (hreq : q.required = true) :
    ∀ fuel i, consoleAskLoop q inp fuel i = Except.ok (Value.vStr "") := by
  intro fuel
  induction fuel with
  | zero => intro i; rfl
  | succ n ih =>
    intro i
    unfold consoleAskLoop
    rw [hinp i]
    rw [if_neg (by simp [CMD_BREAK_ANSWER]), if_pos rfl,
      if_neg (by simp [hdef]), if_neg (by simp [hreq])]
    exact ih (i + 1)

theorem autoByType_other (q : Question) (r : RandDraw)
    (h1 : q.qtype ≠ some "integer") (h2 : q.qtype ≠ some "string")
    (h3 : q.qtype ≠ some "bool") : autoByType q r = Value.vStr "" := by
  unfold autoByType
  split
  · rename_i h
    exact absurd h h1
  · rename_i h
    exact absurd h h2
  · rename_i h
    exact absurd h h3
  · rfl

theorem randomWord_length (g : Nat → Nat) (len : Nat) :
    (randomWord g len).length = len := by
  simp [randomWord, String.length]

theorem letters_getD_mem (n : Nat) : letters.getD (n % 26) 'a' ∈ letters := by
  have h26 : n % 26 < letters.length := by
    have : letters.length = 26 := by decide
    rw [this]
    exact Nat.mod_lt _ (by decide)
  rw [List.getD_eq_getElem?_getD, List.getElem?_eq_getElem h26]
  simp only [Option.getD_some]
  exact List.getElem_mem h26

theorem randomWord_lowercase (g : Nat → Nat) (len : Nat) :
    ((randomWord g len).data.all (fun c => decide (c ∈ letters))) = true := by
  rw [List.all_eq_true]
  intro c hc
  simp only [randomWord, String.data] at hc
  obtain ⟨i, _, hi⟩ := List.mem_map.mp hc
  rw [decide_eq_true_eq, ← hi]
  exact letters_getD_mem (g i)

/-- C9 (amended): the automated question returns a declared enum member
(provided no member collides with the escape command or the blank answer);
otherwise an integer in [0, 1000] for type `"integer"`, a 10-letter
lowercase word for `"string"`, a boolean for the type string `"bool"` (not
`"boolean"`); in every other case the random draw is the empty string and
`ask` then returns the static default value when it is truthy, else the
empty string. -/
theorem c9_auto_answer_shape (q : Question) (rnd : Nat → RandDraw) :
    (∀ es, q.enum = some es → es ≠ [] →
      Value.vStr "\\q" ∉ es → Value.vStr "" ∉ es →
      autoAsk q rnd = Except.ok (es.getD ((rnd 0).nat0 % es.length) Value.vNull) ∧
      es.getD ((rnd 0).nat0 % es.length) Value.vNull ∈ es) ∧
    (q.enum = none →
      (q.qtype = some "integer" →
        autoAsk q rnd = Except.ok (Value.vInt (Int.ofNat ((rnd 0).nat0 % 1001))) ∧
        (rnd 0).nat0 % 1001 ≤ 1000) ∧
      (q.qtype = some "string" →
        autoAsk q rnd = Except.ok (Value.vStr (randomWord (rnd 0).word 10)) ∧
        (randomWord (rnd 0).word 10).length = 10 ∧
        ((randomWord (rnd 0).word 10).data.all (fun c => decide (c ∈ letters))) = true) ∧
      (q.qtype = some "bool" →
        autoAsk q rnd = Except.ok (Value.vBool (rnd 0).coin)) ∧
      (q.qtype ≠ some "integer" → q.qtype ≠ some "string" → q.qtype ≠ some "bool" →
        autoAsk q rnd = Except.ok (if truthy q.default_value then q.default_value
          else Value.vStr ""))) := by
  constructor
  · intro es hq hne hcmd hblank
    have hlt : (rnd 0).nat0 % es.length < es.length :=
      Nat.mod_lt _ (List.length_pos.mpr hne)
    have hmem : es.getD ((rnd 0).nat0 % es.length) Value.vNull ∈ es := by
      rw [List.getD_eq_getElem?_getD, List.getElem?_eq_getElem hlt]
      simp only [Option.getD_some]
      exact List.getElem_mem hlt
    have hempty : es.isEmpty = false := by
      cases es with
      | nil => exact absurd rfl hne
      | cons a t => rfl
    have hinp : randomAnswer q (rnd 0) = es.getD ((rnd 0).nat0 % es.length) Value.vNull := by
      simp [randomAnswer, hq, hempty]
    refine ⟨?_, hmem⟩
    show consoleAskLoop q (fun i => randomAnswer q (rnd i)) (4 + 1) 0 = _
    rw [consoleAskLoop_enum_member q _ 4 0 es hq hempty
      (by rw [hinp]; intro hcontra; rw [hcontra] at hmem; exact hcmd hmem)
      (by rw [hinp]; intro hcontra; rw [hcontra] at hmem; exact hblank hmem)
      (by rw [hinp]; exact hmem)]
    rw [hinp]
  · intro hq
    refine ⟨?_, ?_, ?_, ?_⟩
    · intro htp
      have hinp : randomAnswer q (rnd 0) = Value.vInt (Int.ofNat ((rnd 0).nat0 % 1001)) := by
        simp [randomAnswer, hq, autoByType, htp]
      refine ⟨?_, Nat.le_of_lt_succ (Nat.mod_lt _ (by norm_num))⟩
      show consoleAskLoop q (fun i => randomAnswer q (rnd i)) (4 + 1) 0 = _
      rw [consoleAskLoop_plain q _ 4 0 hq
        (by rw [hinp]; simp [CMD_BREAK_ANSWER]) (by rw [hinp]; simp)]
      rw [hinp]
    · intro htp
      have hinp : randomAnswer q (rnd 0) = Value.vStr (randomWord (rnd 0).word 10) := by
        simp [randomAnswer, hq, autoByType, htp]
      have hw10 : (randomWord (rnd 0).word 10).length = 10 := randomWord_length _ _
      refine ⟨?_, hw10, randomWord_lowercase _ _⟩
      show consoleAskLoop q (fun i => randomAnswer q (rnd i)) (4 + 1) 0 = _
      rw [consoleAskLoop_plain q _ 4 0 hq
        (by
          rw [hinp]
          simp only [CMD_BREAK_ANSWER, ne_eq, Value.vStr.injEq]
          intro hcontra
          rw [hcontra] at hw10
          cases hw10)
        (by
          rw [hinp]
          simp only [ne_eq, Value.vStr.injEq]
          intro hcontra
          rw [hcontra] at hw10
          cases hw10)]
      rw [hinp]
    · intro htp
      have hinp : randomAnswer q (rnd 0) = Value.vBool (rnd 0).coin := by
        simp [randomAnswer, hq, autoByType, htp]
      show consoleAskLoop q (fun i => randomAnswer q (rnd i)) (4 + 1) 0 =
        Except.ok (Value.vBool (rnd 0).coin)
      rw [consoleAskLoop_plain q _ 4 0 hq
        (by rw [hinp]; simp [CMD_BREAK_ANSWER]) (by rw [hinp]; simp)]
      rw [hinp]
    · intro h1 h2 h3
      have hinp : ∀ j, randomAnswer q (rnd j) = Value.vStr "" := by
        intro j
        rw [show randomAnswer q (rnd j) = autoByType q (rnd j) by simp [randomAnswer, hq]]
        exact autoByType_other q (rnd j) h1 h2 h3
      rcases hdef : truthy q.default_value with _ | _
      · rcases hreq : q.required with _ | _
        · show consoleAskLoop q (fun i => randomAnswer q (rnd i)) (4 + 1) 0 = _
          rw [consoleAskLoop_blank_notrequired q _ 4 0 (hinp 0) hdef hreq]
          simp [hdef]
        · show consoleAskLoop q (fun i => randomAnswer q (rnd i)) 5 0 = _
          rw [consoleAskLoop_blank_required q _ hinp hdef hreq 5 0]
          simp [hdef]
      · show consoleAskLoop q (fun i => randomAnswer q (rnd i)) (4 + 1) 0 = _
        rw [consoleAskLoop_blank_default q _ 4 0 (hinp 0) hdef]
        simp [hdef]

/-! ### Concrete fixtures (schemas shaped like the test model: an identity
field `name` marked `key_field`, plus one property `x` under repair) -/

/-- Identity-field property: default block with `key_field` set. -/
def fxKeySub : PropSchema :=
  ⟨some "string", none, some (PyDefault.block ⟨Value.vNull, none, true⟩)⟩

/-- Property with a static default value and no question. -/
def fxStaticSub : PropSchema :=
  ⟨some "string", none, some (PyDefault.block ⟨Value.vStr "S", none, false⟩)⟩

/-- Property with a question and no static value. -/
def fxQuestionSub : PropSchema :=
  ⟨some "string", none, some (PyDefault.block ⟨Value.vNull, some "ask x?", false⟩)⟩

/-- Property with no default at all. -/
def fxNoDefaultSub : PropSchema := ⟨some "integer", none, none⟩

def fxPropsStatic : List (String × PropSchema) := [("name", fxKeySub), ("x", fxStaticSub)]

def fxPropsQ : List (String × PropSchema) := [("name", fxKeySub), ("x", fxQuestionSub)]

def fxPropsC2 : List (String × PropSchema) :=
  [("name", fxKeySub), ("x", fxStaticSub), ("y", fxNoDefaultSub)]

/-- A container with no `key_field` anywhere. -/
def fxPropsNoKey : List (String × PropSchema) := [("x", fxQuestionSub)]

def fxDoc : Dict := [("name", Value.vStr "acme")]

def fxFullDoc : Dict := [("name", Value.vStr "acme"), ("x", Value.vStr "S")]

/-- A response source that always answers the string `"A"`. -/
def fxOracleA : Nat → Value := fun _ => Value.vStr "A"

/-- An orchestrator state whose answer cache already records answer `"CC"`
for identity `"acme"` and property `"x"` under container path `[]`. -/
def fxSt3 : OrchState :=
  ⟨[], [([], [(Value.vStr "acme", [("x", Value.vStr "CC")])])], [], [], []⟩

/-- The empty orchestrator state. -/
def fxSt0 : OrchState := ⟨[], [], [], [], []⟩

/-- First `iter_errors` call of the C4 scenario. -/
def fxRun1 : RunState := freshRun fxOracleA fxPropsQ ["x"] [] [] fxDoc

/-- The state persisting into a second call on the same orchestrator. -/
def fxPersist2 : Persist := ⟨fxRun1.st.answers, fxRun1.st.askLog, fxRun1.st.created⟩

/-- Second `iter_errors` call, on a second document with the same identity
value and the same property missing. -/
def fxRun2 : RunState :=
  runIterErrors fxOracleA fxPropsQ ["x"] [] fxPersist2 [("name", Value.vStr "acme")]

/-- C4 counterexample: across two top-level validation calls on one
orchestrator, the `Question` for path `["x"]` is constructed twice —
`iter_errors` resets `self._questions` at the start of every call — even
though the second call replays the cached answer without asking (the ask
log still has a single entry).  This falsifies "a Question object is
created at most once for that path during the instance's lifetime". -/
theorem c4_counterexample : fxRun2.st.created = [["x"], ["x"]] ∧
    fxRun2.st.askLog.length = 1 := by decide

/-- C5 counterexample: with a question whose ask answers null, the run
completes, the property is written as null (it is *not* left unset), and
the required error is *not* yielded.  This falsifies "the property is left
unset ... the orchestrator yields the original required error". -/
theorem c5_counterexample :
    alist.find (freshRun (fun _ => Value.vNull) fxPropsQ ["x"] [] [] fxDoc).inst "x" =
      some Value.vNull ∧
    YieldErr.required "x" ∉ (freshRun (fun _ => Value.vNull) fxPropsQ ["x"] [] [] fxDoc).yielded ∧
    (freshRun (fun _ => Value.vNull) fxPropsQ ["x"] [] [] fxDoc).crashed = none := by
  decide

/-- C6 (code bug): a container whose property schemas declare no
`key_field` makes `_get_key` return `None`, and `_ask` then evaluates
`instance[None]`, raising `KeyError` — resolving a defaultable property of
such a container crashes instead of falling back to asking without
caching. -/
theorem c6_no_key_field_raises :
    getKey fxPropsNoKey = none ∧
    (freshRun fxOracleA fxPropsNoKey ["x"] [] [] []).crashed = some PyExc.keyError := by
  decide

/-- The interactive question of the C7 scenario: an enum of three values,
required, no static default. -/
def fxC7Q : Question :=
  ⟨Value.vNull, false, some [Value.vStr "OW", Value.vStr "CC", Value.vStr "SV"],
    "account type?", true, some "string"⟩

/-- C7 (code bug): `ConsoleQuestion.ask` catches only `TypeError` around
`self._enum[int(answer)]`, but `int` on a non-numeric string raises
`ValueError` and an out-of-range numeric answer raises `IndexError`; both
escape instead of re-prompting, so `ask` raises rather than retrying up to
5 attempts. -/
theorem c7_invalid_enum_input_raises :
    consoleAsk fxC7Q (fun _ => Value.vStr "zz") = Except.error PyExc.valueError ∧
    consoleAsk fxC7Q (fun _ => Value.vStr "9") = Except.error PyExc.indexError := by
  decide

/-- The automated question of the C9 counterexample: declared type
`"boolean"`, truthy static default, no enum. -/
def fxC9Q : Question := ⟨Value.vStr "d", false, none, "?", false, some "boolean"⟩

/-- C9 counterexample: for a `"boolean"`-typed automated question the draw
is the empty string (the mapping key is `"bool"`), and the blank-answer
branch then returns the truthy static default — not a boolean and not the
empty string.  This falsifies "if boolean it returns a boolean ... in
every other case it returns the empty string". -/
theorem c9_counterexample :
    autoAsk fxC9Q (fun _ => ⟨3, fun _ => 0, true⟩) = Except.ok (Value.vStr "d") := by
  decide

/-- Witness for C1 at a concrete schema and document. -/
theorem c1_static_default_injected_witness :
    alist.find (freshRun fxOracleA fxPropsStatic ["x"] [] [] fxDoc).inst "x" =
      some (Value.vStr "S") ∧
    noAskFor (freshRun fxOracleA fxPropsStatic ["x"] [] [] fxDoc).st.askLog
      ([] ++ ["x"]) = true :=
  c1_static_default_injected fxOracleA fxPropsStatic ["x"] [] [] fxDoc "x" fxStaticSub
    ⟨Value.vStr "S", none, false⟩ (by decide) (by decide) (by decide) (by decide) (by decide)

/-- Witness for C2 at a concrete schema: `y` is required with no default
and is reported; `x` is required with a default block and is filled. -/
theorem c2_required_missing_witness :
    YieldErr.required "y" ∈ (freshRun fxOracleA fxPropsC2 ["x", "y"] [] [] fxDoc).yielded ∧
    (YieldErr.required "x" ∉ (freshRun fxOracleA fxPropsC2 ["x", "y"] [] [] fxDoc).yielded ∧
     (alist.find (freshRun fxOracleA fxPropsC2 ["x", "y"] [] [] fxDoc).inst "x").isSome) :=
  ⟨(c2_required_missing fxOracleA fxPropsC2 ["x", "y"] [] [] fxDoc "y"
      (by decide) (by decide) (by decide)).1 (by decide),
   (c2_required_missing fxOracleA fxPropsC2 ["x", "y"] [] [] fxDoc "x"
      (by decide) (by decide) (by decide)).2 fxStaticSub
      ⟨Value.vStr "S", none, false⟩ (by decide) (by decide)⟩

/-- Witness for C3: a cached answer `"CC"` for identity `"acme"` is
replayed without asking; a fresh identity `"zorg"` asks. -/
theorem c3_answer_cache_idempotent_witness :
    (askValue (askStep fxOracleA fxPropsQ fxDoc fxSt3 ["x"] "x") =
        Except.ok (Value.vStr "CC") ∧
     askTrace (askStep fxOracleA fxPropsQ fxDoc fxSt3 ["x"] "x") = []) ∧
    (askValue (askStep fxOracleA fxPropsQ [("name", Value.vStr "zorg")] fxSt3 ["x"] "x") =
        Except.ok (Value.vStr "A") ∧
     askTrace (askStep fxOracleA fxPropsQ [("name", Value.vStr "zorg")] fxSt3 ["x"] "x") =
        [(["x"], some (Value.vStr "zorg"))]) :=
  have h := c3_answer_cache_idempotent fxOracleA fxPropsQ fxDoc fxSt3 ["x"] "x" "name"
    (Value.vStr "acme") (Value.vStr "CC") (Or.inr ⟨rfl, rfl⟩) (by decide) (by decide)
    (by decide)
  ⟨h.1, h.2 [("name", Value.vStr "zorg")] (Value.vStr "zorg") (by decide) (by decide)
    (by decide)⟩

/-- Witness for C5 (amended) at a concrete schema and document. -/
theorem c5_null_answer_written_as_null_witness :
    alist.find (freshRun (fun _ => Value.vNull) fxPropsQ ["x"] [] [] fxDoc).inst "x" =
      some Value.vNull ∧
    YieldErr.required "x" ∉
      (freshRun (fun _ => Value.vNull) fxPropsQ ["x"] [] [] fxDoc).yielded :=
  c5_null_answer_written_as_null fxPropsQ ["x"] [] fxDoc "x" fxQuestionSub
    ⟨Value.vNull, some "ask x?", false⟩ "ask x?" (by decide) (by decide) (by decide)
    (by decide) (by decide)

/-- Witness for C8 on a fully populated conformant document. -/
theorem c8_conformant_noop_witness :
    (freshRun fxOracleA fxPropsStatic ["x"] [] [] fxFullDoc).inst = fxFullDoc ∧
    (freshRun fxOracleA fxPropsStatic ["x"] [] [] fxFullDoc).yielded = [] ∧
    (freshRun fxOracleA fxPropsStatic ["x"] [] [] fxFullDoc).st.askLog = [] ∧
    (freshRun fxOracleA fxPropsStatic ["x"] [] [] fxFullDoc).st.created = [] ∧
    (freshRun fxOracleA fxPropsStatic ["x"] [] [] fxFullDoc).crashed = none :=
  c8_conformant_noop fxOracleA fxPropsStatic ["x"] [] [] fxFullDoc (by decide) (by decide)

/-- Witness for C9 (amended) at the integer-typed automated question. -/
theorem c9_auto_answer_shape_witness :
    autoAsk ⟨Value.vNull, false, none, "?", false, some "integer"⟩
        (fun _ => ⟨1234, fun _ => 0, true⟩) =
      Except.ok (Value.vInt 233) ∧ 1234 % 1001 ≤ 1000 :=
  ((c9_auto_answer_shape ⟨Value.vNull, false, none, "?", false, some "integer"⟩
    (fun _ => ⟨1234, fun _ => 0, true⟩)).2 rfl).1 rfl

/-- Witness for C10: a null answer for identity `"acme"` is not recorded
and the question is asked again on the next resolution. -/
theorem c10_null_never_cached_witness :
    askValue (askStep (fun _ => Value.vNull) fxPropsQ fxDoc fxSt0 ["x"] "x") =
      Except.ok Value.vNull ∧
    lookupAnswer (askState (askStep (fun _ => Value.vNull) fxPropsQ fxDoc fxSt0 ["x"] "x")
      fxSt0).answers (List.dropLast ["x"]) (Value.vStr "acme") "x" = none ∧
    leafAllNonNullB (askState (askStep (fun _ => Value.vNull) fxPropsQ fxDoc fxSt0 ["x"] "x")
      fxSt0).answers = true ∧
    askValue (askStep (fun _ => Value.vNull) fxPropsQ fxDoc
        (askState (askStep (fun _ => Value.vNull) fxPropsQ fxDoc fxSt0 ["x"] "x") fxSt0)
        ["x"] "x") = Except.ok Value.vNull ∧
    askTrace (askStep (fun _ => Value.vNull) fxPropsQ fxDoc
        (askState (askStep (fun _ => Value.vNull) fxPropsQ fxDoc fxSt0 ["x"] "x") fxSt0)
        ["x"] "x") =
      [(["x"], some (Value.vStr "acme")), (["x"], some (Value.vStr "acme"))] :=
  (c10_null_never_cached (fun _ => Value.vNull) fxPropsQ fxDoc fxSt0 ["x"] "x" "name"
    (Value.vStr "acme") (Or.inr ⟨rfl, rfl⟩) (by decide) (by decide) (by decide) rfl
    (by decide)).2
